import Mathlib

/-!
# ICM42605 SPI gyro/accelerometer driver

Shallow embedding of `src/main/drivers/accgyro/accgyro_spi_icm42605.c`.

* The SPI bus, the delay primitive and the sensor are external collaborators.
  A bus handle is modelled as explicit state: the clock divisor currently set,
  the log of operations issued so far (each entry carries the divisor that was
  in effect when it was issued) and the streams of values the device is going
  to answer with.
* Machine integers are `Nat`/`Int`; a store into a `uint8_t` is an explicit
  `% 256`, the cast `(int16_t)` is `toInt16`.
* Constants and functions that are declared outside of the driver file
  (`ICM42605_WHO_AM_I_CONST`, `MPU_RA_WHO_AM_I`, `GYRO_RATE_1_kHz`,
  `spiCalculateDivider`, `mpuGyroInit`, the build flag
  `USE_MPU_DATA_READY_SIGNAL`) are parameters, collected in `Platform`.
-/

namespace ICM42605

/-! ## Data model -/

/-- Modelled from the spec: the sensor identity enumeration `mpuSensor_e`
(declared in `accgyro_mpu.h`). Only the two enumerators the driver uses are
kept: "unknown" and "this chip variant" (spec, section 3). -/
inductive mpuSensor_e where
  | MPU_NONE
  | ICM_42605_SPI
  deriving DecidableEq, Repr

open mpuSensor_e

/-- One operation on the bus (or the blocking `delay`), as seen from outside. -/
inductive BusOp where
  /-- The call `spiSetDivisor(instance, divisor)`. -/
  | setDivisor (divisor : Nat)
  /-- The call `spiBusWriteRegister(bus, reg, data)`. -/
  | writeRegister (reg data : Nat)
  /-- The call `spiBusReadRegister(bus, reg)` which returned `data`. -/
  | readRegister (reg data : Nat)
  /-- The call `delay(ms)`. -/
  | delay (ms : Nat)
  /-- The call `busReadRegisterBuffer(bus, reg, data, length)` which returned `ack`. -/
  | readRegisterBuffer (reg length : Nat) (ack : Bool)
  /-- The call `spiBusTransfer(bus, txData, rxData, length)` which returned `ack`. -/
  | transfer (txData : List Nat) (length : Nat) (ack : Bool)
  deriving DecidableEq, Repr

/-- A logged operation together with the clock divisor in effect when it was issued. -/
structure BusEvent where
  clk : Nat
  op : BusOp
  deriving DecidableEq, Repr

/-- Modelled from the spec: the bus handle `busDevice_t` (declared in the bus
layer), "an opaque external resource" that "carries a mutable clock-divisor
state", together with the device behind it. `trace` logs what was issued,
`regRx k` is the value the `k`-th coming register read returns, `burstRx k`
the acknowledge flag and the bytes of the `k`-th coming burst. -/
structure busDevice_t where
  divisor : Nat
  trace : List BusEvent
  regRx : Nat → Nat
  burstRx : Nat → Bool × (Nat → Nat)

/-- The three raw sample slots `int16_t [XYZ_AXIS_COUNT]`. -/
structure axes_t where
  X : Int
  Y : Int
  Z : Int
  deriving DecidableEq, Repr

/-- Modelled from the spec: the gyro device state `gyroDev_t` (declared in
`accgyro.h`), reduced to the fields the driver reads or writes: the bus, the
three raw sample slots, the hardware filter selector (`uint8_t`), the
negotiated sample rate (an enumeration) and the sample-rate divider
(`uint8_t`). -/
structure gyroDev_t where
  bus : busDevice_t
  gyroADCRaw : axes_t
  hardware_lpf : Nat
  gyroRateKHz : Nat
  mpuDividerDrops : Nat

/-- Modelled from the spec: the accelerometer device state `accDev_t`
(declared in `accgyro.h`), reduced to the fields the driver reads or writes. -/
structure accDev_t where
  bus : busDevice_t
  ADCRaw : axes_t
  acc_1G : Nat

/-- What the driver takes from the rest of the firmware. -/
structure Platform where
  /-- The expected content of the identity register. -/
  ICM42605_WHO_AM_I_CONST : Nat
  /-- The address of the identity register. -/
  MPU_RA_WHO_AM_I : Nat
  /-- The enumerator of `gyroRateKHz_e` for 1 kHz. -/
  GYRO_RATE_1_kHz : Nat
  /-- The function `spiCalculateDivider` of the bus layer. -/
  spiCalculateDivider : Nat → Nat
  /-- The generic pre-init `mpuGyroInit`. -/
  mpuGyroInit : gyroDev_t → gyroDev_t
  /-- Whether `USE_MPU_DATA_READY_SIGNAL` is defined. -/
  USE_MPU_DATA_READY_SIGNAL : Bool

/-! ## Bus primitives -/

/-- Append an operation to the log, tagged with the divisor in effect. -/
def busDevice_t.log (bus : busDevice_t) (op : BusOp) : busDevice_t :=
  { bus with trace := bus.trace ++ [⟨bus.divisor, op⟩] }

def spiSetDivisor (divisor : Nat) (bus : busDevice_t) : busDevice_t :=
  { bus.log (.setDivisor divisor) with divisor := divisor }

/-- The data parameter is a `uint8_t`. -/
def spiBusWriteRegister (reg data : Nat) (bus : busDevice_t) : busDevice_t :=
  bus.log (.writeRegister reg (data % 256))

/-- Returns a `uint8_t` and consumes one answer of the device. -/
def spiBusReadRegister (reg : Nat) (bus : busDevice_t) : Nat × busDevice_t :=
  let data := bus.regRx 0 % 256
  (data, { bus.log (.readRegister reg data) with regRx := fun k => bus.regRx (k + 1) })

def delay (ms : Nat) (bus : busDevice_t) : busDevice_t :=
  bus.log (.delay ms)

/-- Fills a `uint8_t` buffer (`data i` for `i < length`) and returns the acknowledge flag. -/
def busReadRegisterBuffer (reg length : Nat) (bus : busDevice_t) :
    Bool × (Nat → Nat) × busDevice_t :=
  let r := bus.burstRx 0
  (r.1, (fun i => r.2 i % 256),
    { bus.log (.readRegisterBuffer reg length r.1) with burstRx := fun k => bus.burstRx (k + 1) })

/-- Fills a `uint8_t` buffer (`data i` for `i < length`) and returns the acknowledge flag. -/
def spiBusTransfer (txData : List Nat) (length : Nat) (bus : busDevice_t) :
    Bool × (Nat → Nat) × busDevice_t :=
  let r := bus.burstRx 0
  (r.1, (fun i => r.2 i % 256),
    { bus.log (.transfer txData length r.1) with burstRx := fun k => bus.burstRx (k + 1) })

/-! ## Tables and register constants (lines 47-134) -/

structure icm42605_aaf_s where
  DELTSQR : Nat
  DELT : Nat
  BITSHIFT : Nat
  deriving DecidableEq, Repr

def icm42605_aaf : List icm42605_aaf_s :=
  [ ⟨3968, 31, 3⟩,
    ⟨680, 26, 6⟩,
    ⟨400, 20, 6⟩,
    ⟨256, 16, 7⟩ ]

def ICM42605_MAX_SPI_CLK_HZ : Nat := 24000000
def ICM42605_MAX_SPI_INIT_CLK_HZ : Nat := 1000000

def ICM42605_BANK_SELECT : Nat := 0x76
def ICM42605_RA_PWR_MGMT0 : Nat := 0x4E
def ICM42605_PWR_MGMT0_ACCEL_MODE_LN : Nat := 3 <<< 0
def ICM42605_PWR_MGMT0_GYRO_MODE_LN : Nat := 3 <<< 2
def ICM42605_PWR_MGMT0_TEMP_DISABLE_OFF : Nat := 0 <<< 5
def ICM42605_RA_GYRO_CONFIG0 : Nat := 0x4F
def ICM42605_RA_ACCEL_CONFIG0 : Nat := 0x50
def ICM42605_RA_GYRO_CONFIG1 : Nat := 0x51
def ICM42605_GYRO_FILTER_ORDER : Nat := 3
def ICM42605_RA_GYRO_ACCEL_CONFIG0 : Nat := 0x52
def ICM42605_ACCEL_UI_FILT_BW_LOW_LATENCY : Nat := 14 <<< 4
def ICM42605_GYRO_UI_FILT_BW_LOW_LATENCY : Nat := 14 <<< 0
def ICM42605_GYRO_UI_FILT_VALUE : Nat :=
  ICM42605_ACCEL_UI_FILT_BW_LOW_LATENCY ||| ICM42605_GYRO_UI_FILT_BW_LOW_LATENCY
def ICM42605_ACCEL_UI_FILT_BW_LOW_LATENCY_LPF : Nat := 7 <<< 4
def ICM42605_GYRO_UI_FILT_BW_LOW_LATENCY_LPF : Nat := 7 <<< 0
def ICM42605_GYRO_UI_FILT_VALUE_LPF : Nat :=
  ICM42605_ACCEL_UI_FILT_BW_LOW_LATENCY_LPF ||| ICM42605_GYRO_UI_FILT_BW_LOW_LATENCY_LPF
def ICM42605_RA_GYRO_DATA_X1 : Nat := 0x25
def ICM42605_RA_ACCEL_DATA_X1 : Nat := 0x1F
def ICM42605_RA_INT_CONFIG : Nat := 0x14
def ICM42605_INT1_MODE_PULSED : Nat := 0 <<< 2
def ICM42605_INT1_DRIVE_CIRCUIT_PP : Nat := 1 <<< 1
def ICM42605_INT1_POLARITY_ACTIVE_HIGH : Nat := 1 <<< 0
def ICM42605_RA_INT_CONFIG0 : Nat := 0x63
/-- The C expression is `((0 << 5) || (0 << 4))`, a logical or. -/
def ICM42605_UI_DRDY_INT_CLEAR_ON_SBR : Nat :=
  if (0 <<< 5) ≠ 0 ∨ (0 <<< 4) ≠ 0 then 1 else 0
def ICM42605_RA_INT_CONFIG1 : Nat := 0x64
def ICM42605_INT_ASYNC_RESET_BIT : Nat := 4
def ICM42605_INT_TDEASSERT_DISABLE_BIT : Nat := 5
def ICM42605_INT_TDEASSERT_DISABLED : Nat := 1 <<< ICM42605_INT_TDEASSERT_DISABLE_BIT
def ICM42605_INT_TPULSE_DURATION_BIT : Nat := 6
def ICM42605_INT_TPULSE_DURATION_8 : Nat := 1 <<< ICM42605_INT_TPULSE_DURATION_BIT
def ICM42605_RA_INT_SOURCE0 : Nat := 0x65
def ICM42605_UI_DRDY_INT1_EN_ENABLED : Nat := 1 <<< 3
def ICM42605_GYRO_CONFIG_STATIC2 : Nat := 0x0B
def ICM42605_GYRO_CONFIG_STATIC2_AAF_EN : Nat := 0x0
def ICM42605_GYRO_CONFIG_STATIC2_NF_DIS : Nat := 0x1
def ICM42605_GYRO_CONFIG_STATIC3 : Nat := 0x0C
def ICM42605_GYRO_CONFIG_STATIC4 : Nat := 0x0D
def ICM42605_GYRO_CONFIG_STATIC5 : Nat := 0x0E

/-- The `STATIC_ASSERT` of line 248 fixes this value. -/
def INV_FSR_2000DPS : Nat := 3
/-- The `STATIC_ASSERT` of line 252 fixes this value. -/
def INV_FSR_16G : Nat := 3

/-! ## Identity detection (lines 137-167) -/

/-- How the `do ... while` loop of `icm42605SpiDetect` is left. -/
inductive LoopExit where
  /-- Through `return MPU_NONE` inside the loop. -/
  | returned (value : mpuSensor_e)
  /-- Through `break`, with the current `icmDetected`. -/
  | left (icmDetected : mpuSensor_e)
  deriving DecidableEq, Repr

/-- The first part of the loop body (lines 146-155): wait, read the identity
register, classify the answer. -/
def detectAttempt (P : Platform) (bus : busDevice_t) : mpuSensor_e × busDevice_t :=
  let bus := delay 150 bus
  let r := spiBusReadRegister P.MPU_RA_WHO_AM_I bus
  let whoAmI := r.1
  let icmDetected := if whoAmI = P.ICM42605_WHO_AM_I_CONST then ICM_42605_SPI else MPU_NONE
  (icmDetected, r.2)

/-- The loop of lines 145-162, by recursion on `attemptsRemaining`. With
`attemptsRemaining = 0` a mismatch leaves through `return MPU_NONE` (line 160);
otherwise the condition `attemptsRemaining--` is true and the body runs again with
the counter decremented. -/
def detectLoop (P : Platform) : Nat → busDevice_t → LoopExit × busDevice_t
  | 0, bus =>
    let r := detectAttempt P bus
    if r.1 ≠ MPU_NONE then (.left r.1, r.2)
    else (.returned MPU_NONE, r.2)
  | attemptsRemaining + 1, bus =>
    let r := detectAttempt P bus
    if r.1 ≠ MPU_NONE then (.left r.1, r.2)
    else detectLoop P attemptsRemaining r.2

def icm42605SpiDetect (P : Platform) (bus : busDevice_t) : mpuSensor_e × busDevice_t :=
  let bus := spiSetDivisor (P.spiCalculateDivider ICM42605_MAX_SPI_INIT_CLK_HZ) bus
  let bus := spiBusWriteRegister ICM42605_RA_PWR_MGMT0 0x00 bus
  match detectLoop P 20 bus with
  | (.returned value, bus) => (value, bus)
  | (.left icmDetected, bus) =>
    (icmDetected, spiSetDivisor (P.spiCalculateDivider ICM42605_MAX_SPI_CLK_HZ) bus)

/-! ## Accelerometer (lines 169-188) -/

/-- The cast `(int16_t)` of a non-negative `int`: two's complement, 16 bits. -/
def toInt16 (v : Nat) : Int :=
  if v % 65536 < 32768 then ((v % 65536 : Nat) : Int) else ((v % 65536 : Nat) : Int) - 65536

def icm42605AccInit (acc : accDev_t) : accDev_t :=
  { acc with acc_1G := 512 * 4 }

def icm42605AccRead (acc : accDev_t) : Bool × accDev_t :=
  let r := busReadRegisterBuffer ICM42605_RA_ACCEL_DATA_X1 6 acc.bus
  let ack := r.1
  let data := r.2.1
  let acc := { acc with bus := r.2.2 }
  if !ack then (false, acc)
  else
    (true, { acc with ADCRaw :=
      { X := toInt16 ((data 0 <<< 8) ||| data 1),
        Y := toInt16 ((data 2 <<< 8) ||| data 3),
        Z := toInt16 ((data 4 <<< 8) ||| data 5) } })

/-! ## Gyro bring-up (lines 205-298) -/

structure odrEntry_t where
  khz : Nat
  odr : Nat
  deriving DecidableEq, Repr

def icm42605PkhzToSupportedODRMap : List odrEntry_t :=
  [ ⟨8, 3⟩,
    ⟨4, 4⟩,
    ⟨2, 5⟩,
    ⟨1, 6⟩ ]

/-- The `for` loop of lines 234-240 over the entries that are left: the first
entry whose `khz` equals `desiredODRKhz` ends the search. -/
def odrSearch (desiredODRKhz : Nat) : List odrEntry_t → Option Nat
  | [] => none
  | e :: rest => if e.khz = desiredODRKhz then some e.odr else odrSearch desiredODRKhz rest

/-- The variable `gyroSyncDenominator` of line 232, a `uint8_t`. -/
def gyroSyncDenominator (gyro : gyroDev_t) : Nat :=
  (gyro.mpuDividerDrops + 1) % 256

/-- Lines 228-246. The result is the pair of `outputDataRate` and the updated
device state; `none` stands for the undefined division by zero of line 233. -/
def negotiateODR (P : Platform) (gyro : gyroDev_t) : Option (Nat × gyroDev_t) :=
  let found : Option (Option Nat) :=
    if gyro.gyroRateKHz ≠ 0 then
      if gyroSyncDenominator gyro = 0 then none
      else
        let desiredODRKhz := (8 / gyroSyncDenominator gyro) % 256
        some (odrSearch desiredODRKhz icm42605PkhzToSupportedODRMap)
    else some none
  match found with
  | none => none
  | some (some outputDataRate) => some (outputDataRate, gyro)
  | some none => some (6, { gyro with gyroRateKHz := P.GYRO_RATE_1_kHz })

/-- Lines 267-284: the anti-alias filter block. The index `lpf_mode - 1` is
inside the table whenever the guard holds; `none` stands for an access
outside of it. -/
def aafBlock (lpf_mode : Nat) (bus : busDevice_t) : Option busDevice_t :=
  if lpf_mode ≠ 0 ∧ lpf_mode < 4 then
    match icm42605_aaf.get? (lpf_mode - 1) with
    | none => none
    | some aaf_cfg =>
      let bus := spiBusWriteRegister ICM42605_BANK_SELECT 1 bus
      let bus := spiBusWriteRegister ICM42605_GYRO_CONFIG_STATIC2
        (0xA8 ||| ICM42605_GYRO_CONFIG_STATIC2_AAF_EN ||| ICM42605_GYRO_CONFIG_STATIC2_NF_DIS) bus
      let bus := spiBusWriteRegister ICM42605_GYRO_CONFIG_STATIC3 (0x80 ||| aaf_cfg.DELT) bus
      let bus := spiBusWriteRegister ICM42605_GYRO_CONFIG_STATIC4 (aaf_cfg.DELTSQR &&& 0xFF) bus
      let bus := spiBusWriteRegister ICM42605_GYRO_CONFIG_STATIC5
        ((aaf_cfg.BITSHIFT <<< 4) ||| ((aaf_cfg.DELTSQR >>> 8) &&& 0xf)) bus
      let bus := spiBusWriteRegister ICM42605_BANK_SELECT 0 bus
      some bus
  else some bus

/-- Lines 286-295: the data-ready block, compiled in when the flag is set.
`intConfig1Value` is a `uint8_t`, so `&= ~(1 << 4)` is the bitwise and with
`255 - (1 << 4)`: bit 4 is cleared and the other seven bits are kept. -/
def dataReadyBlock (P : Platform) (bus : busDevice_t) : busDevice_t :=
  if P.USE_MPU_DATA_READY_SIGNAL then
    let bus := spiBusWriteRegister ICM42605_RA_INT_SOURCE0 ICM42605_UI_DRDY_INT1_EN_ENABLED bus
    let r := spiBusReadRegister ICM42605_RA_INT_CONFIG1 bus
    let intConfig1Value := r.1
    let bus := r.2
    let intConfig1Value := (intConfig1Value &&& (255 - (1 <<< ICM42605_INT_ASYNC_RESET_BIT))) % 256
    let intConfig1Value :=
      (intConfig1Value ||| (ICM42605_INT_TPULSE_DURATION_8 ||| ICM42605_INT_TDEASSERT_DISABLED)) % 256
    spiBusWriteRegister ICM42605_RA_INT_CONFIG1 intConfig1Value bus
  else bus

def icm42605GyroInit (P : Platform) (gyro : gyroDev_t) : Option gyroDev_t :=
  let lpf_mode := gyro.hardware_lpf
  let gyro := P.mpuGyroInit gyro
  let bus := spiSetDivisor (P.spiCalculateDivider ICM42605_MAX_SPI_INIT_CLK_HZ) gyro.bus
  let bus := spiBusWriteRegister ICM42605_RA_PWR_MGMT0
    (ICM42605_PWR_MGMT0_TEMP_DISABLE_OFF ||| ICM42605_PWR_MGMT0_ACCEL_MODE_LN
      ||| ICM42605_PWR_MGMT0_GYRO_MODE_LN) bus
  let bus := delay 15 bus
  match negotiateODR P gyro with
  | none => none
  | some (outputDataRate, gyro) =>
    let bus := spiBusWriteRegister ICM42605_RA_GYRO_CONFIG0
      (((3 - INV_FSR_2000DPS) <<< 5) ||| (outputDataRate &&& 0x0F)) bus
    let bus := delay 15 bus
    let bus := spiBusWriteRegister ICM42605_RA_ACCEL_CONFIG0
      (((3 - INV_FSR_16G) <<< 5) ||| (outputDataRate &&& 0x0F)) bus
    let bus := delay 15 bus
    let bus := spiBusWriteRegister ICM42605_RA_GYRO_ACCEL_CONFIG0
      (if lpf_mode ≠ 0 then ICM42605_GYRO_UI_FILT_VALUE_LPF else ICM42605_GYRO_UI_FILT_VALUE) bus
    let bus := spiBusWriteRegister ICM42605_RA_GYRO_CONFIG1
      (0x12 ||| ((ICM42605_GYRO_FILTER_ORDER - 1) <<< 2)) bus
    let bus := spiBusWriteRegister ICM42605_RA_INT_CONFIG
      (ICM42605_INT1_MODE_PULSED ||| ICM42605_INT1_DRIVE_CIRCUIT_PP
        ||| ICM42605_INT1_POLARITY_ACTIVE_HIGH) bus
    let bus := spiBusWriteRegister ICM42605_RA_INT_CONFIG0 ICM42605_UI_DRDY_INT_CLEAR_ON_SBR bus
    match aafBlock lpf_mode bus with
    | none => none
    | some bus =>
      let bus := dataReadyBlock P bus
      let bus := spiSetDivisor (P.spiCalculateDivider ICM42605_MAX_SPI_CLK_HZ) bus
      some { gyro with bus := bus }

/-! ## Gyro steady-state read (lines 300-315) -/

def dataToSend : List Nat :=
  [ICM42605_RA_GYRO_DATA_X1 ||| 0x80, 0xFF, 0xFF, 0xFF, 0xFF, 0xFF, 0xFF]

def icm42605GyroReadSPI (gyro : gyroDev_t) : Bool × gyroDev_t :=
  let r := spiBusTransfer dataToSend 7 gyro.bus
  let ack := r.1
  let data := r.2.1
  let gyro := { gyro with bus := r.2.2 }
  if !ack then (false, gyro)
  else
    (true, { gyro with gyroADCRaw :=
      { X := toInt16 ((data 1 <<< 8) ||| data 2),
        Y := toInt16 ((data 3 <<< 8) ||| data 4),
        Z := toInt16 ((data 5 <<< 8) ||| data 6) } })

/-! ## Helpers to read a log -/

/-- The events `after` has logged beyond those of `before`. -/
def issued (before after : busDevice_t) : List BusEvent :=
  after.trace.drop before.trace.length

def BusOp.isRead : BusOp → Bool
  | .readRegister _ _ => true
  | _ => false

def BusOp.isWrite : BusOp → Bool
  | .writeRegister _ _ => true
  | _ => false

def BusOp.isDelay : BusOp → Bool
  | .delay _ => true
  | _ => false

def BusOp.isSetDivisor : BusOp → Bool
  | .setDivisor _ => true
  | _ => false

/-- Whether the operation is a write to register `reg`. -/
def BusOp.writesTo (reg : Nat) : BusOp → Bool
  | .writeRegister r _ => r == reg
  | _ => false

def countReads (evs : List BusEvent) : Nat := (evs.filter (fun e => e.op.isRead)).length

def countDelays (evs : List BusEvent) : Nat := (evs.filter (fun e => e.op.isDelay)).length

/-- The values written to register `reg`, in order. -/
def valuesWritten (reg : Nat) : List BusOp → List Nat
  | [] => []
  | .writeRegister r v :: rest =>
    if r = reg then v :: valuesWritten reg rest else valuesWritten reg rest
  | _ :: rest => valuesWritten reg rest

/-- A platform to evaluate the driver on: identity constant 0x42 at register
0x75, the 1 kHz enumerator 0, a divider of `48 MHz / hz`, a pre-init that
changes nothing, and the data-ready block compiled in or not. -/
def examplePlatform (drdy : Bool) : Platform where
  ICM42605_WHO_AM_I_CONST := 0x42
  MPU_RA_WHO_AM_I := 0x75
  GYRO_RATE_1_kHz := 0
  spiCalculateDivider := fun hz => 48000000 / hz
  mpuGyroInit := fun gyro => gyro
  USE_MPU_DATA_READY_SIGNAL := drdy

/-- A bus at divisor `divisor` with an empty log whose device answers register
reads with `regRx` and every burst with `burst`. -/
def exampleBus (divisor : Nat) (regRx : Nat → Nat) (burst : Bool × (Nat → Nat)) : busDevice_t where
  divisor := divisor
  trace := []
  regRx := regRx
  burstRx := fun _ => burst

/-- The answer of the device to the `k`-th coming register read, as the
`uint8_t` that `spiBusReadRegister` returns. -/
def answer (bus : busDevice_t) (k : Nat) : Nat := bus.regRx k % 256

/-- The events of `count` detection attempts at divisor `clk`: each one is a
`delay(150)` followed by a read of register `reg`. -/
def attemptEvents (clk reg : Nat) (rx : Nat → Nat) : Nat → List BusEvent
  | 0 => []
  | count + 1 =>
    ⟨clk, .delay 150⟩ :: ⟨clk, .readRegister reg (rx 0 % 256)⟩ ::
      attemptEvents clk reg (fun k => rx (k + 1)) count

/-- The divisor of the initialization speed. -/
def initDivisor (P : Platform) : Nat := P.spiCalculateDivider ICM42605_MAX_SPI_INIT_CLK_HZ

/-- The divisor of the maximum operating speed. -/
def maxDivisor (P : Platform) : Nat := P.spiCalculateDivider ICM42605_MAX_SPI_CLK_HZ

/-- The two events detection starts with: lower the clock, reset the power management. -/
def detectPrologue (P : Platform) (bus : busDevice_t) : List BusEvent :=
  [⟨bus.divisor, .setDivisor (initDivisor P)⟩,
   ⟨initDivisor P, .writeRegister ICM42605_RA_PWR_MGMT0 0⟩]

/-- The value the spec gives to a big-endian byte pair read as a signed 16-bit
number: `hi * 256 + lo` below 32768, and 65536 less from there on. -/
def bigEndianSigned16 (hi lo : Nat) : Int :=
  if hi * 256 + lo < 32768 then ((hi * 256 + lo : Nat) : Int)
  else ((hi * 256 + lo : Nat) : Int) - 65536

/-- The burst answer with the seven bytes `status, b1, ..., b6`. -/
def gyroBurst (status b1 b2 b3 b4 b5 b6 : Nat) : Nat → Nat :=
  fun i => [status, b1, b2, b3, b4, b5, b6].getD i 0

/-- A gyro with the given sample slots on a bus whose device answers every
burst with `burst`. -/
def exampleGyro (raw : axes_t) (burst : Bool × (Nat → Nat)) : gyroDev_t where
  bus := exampleBus 2 (fun _ => 0) burst
  gyroADCRaw := raw
  hardware_lpf := 0
  gyroRateKHz := 0
  mpuDividerDrops := 0

/-- An accelerometer with the given sample slots on a bus whose device answers
every burst with `burst`. -/
def exampleAcc (raw : axes_t) (burst : Bool × (Nat → Nat)) : accDev_t where
  bus := exampleBus 2 (fun _ => 0) burst
  ADCRaw := raw
  acc_1G := 0

/-- The six writes the spec lists for the anti-alias filter profile `e`:
bank 1, notch off and filter on, the three coefficient registers, bank 0. -/
def aafWrites (e : icm42605_aaf_s) : List BusOp :=
  [.writeRegister 0x76 1,
   .writeRegister 0x0B 0xA9,
   .writeRegister 0x0C (0x80 ||| e.DELT),
   .writeRegister 0x0D (e.DELTSQR &&& 0xFF),
   .writeRegister 0x0E ((e.BITSHIFT <<< 4) ||| ((e.DELTSQR >>> 8) &&& 0xF)),
   .writeRegister 0x76 0]

/-- The three coefficient writes among `aafWrites e`. -/
def aafCoefficientWrites (e : icm42605_aaf_s) : List BusOp :=
  [.writeRegister 0x0C (0x80 ||| e.DELT),
   .writeRegister 0x0D (e.DELTSQR &&& 0xFF),
   .writeRegister 0x0E ((e.BITSHIFT <<< 4) ||| ((e.DELTSQR >>> 8) &&& 0xF))]

/-- The anti-alias filter operations the spec (section 4.3, step 10) expects
for the selector `lpf`: those of the table entry at index `lpf - 1` for 1, 2,
3 and none otherwise. -/
def aafOps (lpf : Nat) : List BusOp :=
  if 1 ≤ lpf ∧ lpf ≤ 3 then
    match icm42605_aaf.get? (lpf - 1) with
    | some e => aafWrites e
    | none => []
  else []

/-- The data-ready operations expected when the interrupt-config register
answers `v`: enable the source, read, write back with bit 4 cleared and bits 5
and 6 set; none when the block is compiled out. -/
def dataReadyOps (P : Platform) (v : Nat) : List BusOp :=
  if P.USE_MPU_DATA_READY_SIGNAL then
    [.writeRegister 0x65 0x08,
     .readRegister 0x64 v,
     .writeRegister 0x64 ((v &&& 0xEF) ||| 0x60)]
  else []

/-- The ten operations that follow the lowering of the clock in every
bring-up, for the negotiated code `odr` and the filter selector `lpf`. -/
def bringUpWrites (odr lpf : Nat) : List BusOp :=
  [.writeRegister 0x4E 0x0F,
   .delay 15,
   .writeRegister 0x4F odr,
   .delay 15,
   .writeRegister 0x50 odr,
   .delay 15,
   .writeRegister 0x52 (if lpf ≠ 0 then 0x77 else 0xEE),
   .writeRegister 0x51 0x1A,
   .writeRegister 0x14 0x03,
   .writeRegister 0x63 0x00]

/-- The operations of a bring-up after the lowering of the clock. -/
def bringUpRest (P : Platform) (odr lpf v : Nat) : List BusOp :=
  bringUpWrites odr lpf ++ aafOps lpf ++ dataReadyOps P v ++ [.setDivisor (maxDivisor P)]

/-- The whole bring-up as a list of operations. -/
def bringUpOps (P : Platform) (odr lpf v : Nat) : List BusOp :=
  .setDivisor (initDivisor P) :: bringUpRest P odr lpf v

/-- Whether the operation is a write to the bank-select register or to one of
the bank-1 registers 0x0B..0x0E. -/
def BusOp.touchesAaf (op : BusOp) : Bool :=
  op.writesTo 0x76 || op.writesTo 0x0B || op.writesTo 0x0C || op.writesTo 0x0D
    || op.writesTo 0x0E

/-- Whether the operation is a write to one of the coefficient registers 0x0C..0x0E. -/
def BusOp.isCoefficientWrite (op : BusOp) : Bool :=
  op.writesTo 0x0C || op.writesTo 0x0D || op.writesTo 0x0E

/-- The register bank selected after `ops`, starting from bank `bank`: the
last value written to the bank-select register. -/
def bankAfter (bank : Nat) : List BusOp → Nat
  | [] => bank
  | .writeRegister reg data :: rest =>
    if reg = ICM42605_BANK_SELECT then bankAfter data rest else bankAfter bank rest
  | _ :: rest => bankAfter bank rest

/-- Line 233 is reached with a zero denominator for no state that satisfies this. -/
def divisionDefined (gyro : gyroDev_t) : Prop :=
  gyro.gyroRateKHz = 0 ∨ gyroSyncDenominator gyro ≠ 0

/-- A gyro to run the bring-up on: empty log at divisor 2, a device that
answers every register read with `regAnswer`. -/
def bringUpGyro (hardware_lpf gyroRateKHz mpuDividerDrops regAnswer : Nat) : gyroDev_t where
  bus := exampleBus 2 (fun _ => regAnswer) (false, fun _ => 0)
  gyroADCRaw := ⟨0, 0, 0⟩
  hardware_lpf := hardware_lpf
  gyroRateKHz := gyroRateKHz
  mpuDividerDrops := mpuDividerDrops

/-- The operations `after` has logged beyond those of `before`. -/
def issuedOps (before after : busDevice_t) : List BusOp :=
  (issued before after).map (fun e => e.op)

/-- The low four bits of the values written to register `reg`, in order. -/
def lowNibblesWritten (reg : Nat) (ops : List BusOp) : List Nat :=
  (valuesWritten reg ops).map (fun v => v &&& 0x0F)

/-! ## Lemmas on the bus primitives -/

@[simp] theorem trace_spiSetDivisor (d : Nat) (bus : busDevice_t) :
    (spiSetDivisor d bus).trace = bus.trace ++ [⟨bus.divisor, .setDivisor d⟩] := rfl

@[simp] theorem divisor_spiSetDivisor (d : Nat) (bus : busDevice_t) :
    (spiSetDivisor d bus).divisor = d := rfl

@[simp] theorem regRx_spiSetDivisor (d : Nat) (bus : busDevice_t) :
    (spiSetDivisor d bus).regRx = bus.regRx := rfl

@[simp] theorem trace_spiBusWriteRegister (reg data : Nat) (bus : busDevice_t) :
    (spiBusWriteRegister reg data bus).trace
      = bus.trace ++ [⟨bus.divisor, .writeRegister reg (data % 256)⟩] := rfl

@[simp] theorem divisor_spiBusWriteRegister (reg data : Nat) (bus : busDevice_t) :
    (spiBusWriteRegister reg data bus).divisor = bus.divisor := rfl

@[simp] theorem regRx_spiBusWriteRegister (reg data : Nat) (bus : busDevice_t) :
    (spiBusWriteRegister reg data bus).regRx = bus.regRx := rfl

@[simp] theorem trace_delay (ms : Nat) (bus : busDevice_t) :
    (delay ms bus).trace = bus.trace ++ [⟨bus.divisor, .delay ms⟩] := rfl

@[simp] theorem divisor_delay (ms : Nat) (bus : busDevice_t) :
    (delay ms bus).divisor = bus.divisor := rfl

@[simp] theorem regRx_delay (ms : Nat) (bus : busDevice_t) :
    (delay ms bus).regRx = bus.regRx := rfl

@[simp] theorem fst_spiBusReadRegister (reg : Nat) (bus : busDevice_t) :
    (spiBusReadRegister reg bus).1 = bus.regRx 0 % 256 := rfl

@[simp] theorem trace_spiBusReadRegister (reg : Nat) (bus : busDevice_t) :
    (spiBusReadRegister reg bus).2.trace
      = bus.trace ++ [⟨bus.divisor, .readRegister reg (bus.regRx 0 % 256)⟩] := rfl

@[simp] theorem divisor_spiBusReadRegister (reg : Nat) (bus : busDevice_t) :
    (spiBusReadRegister reg bus).2.divisor = bus.divisor := rfl

@[simp] theorem regRx_spiBusReadRegister (reg : Nat) (bus : busDevice_t) :
    (spiBusReadRegister reg bus).2.regRx = fun k => bus.regRx (k + 1) := rfl

theorem issued_of_trace_eq {before after : busDevice_t} {evs : List BusEvent}
    (h : after.trace = before.trace ++ evs) : issued before after = evs := by
  simp [issued, h]

/-! ## Lemmas on the detection loop -/

theorem detectAttempt_fst (P : Platform) (bus : busDevice_t) :
    (detectAttempt P bus).1
      = if answer bus 0 = P.ICM42605_WHO_AM_I_CONST then ICM_42605_SPI else MPU_NONE := by
  simp [detectAttempt, answer]

theorem detectAttempt_trace (P : Platform) (bus : busDevice_t) :
    (detectAttempt P bus).2.trace
      = bus.trace ++ attemptEvents bus.divisor P.MPU_RA_WHO_AM_I bus.regRx 1 := by
  simp [detectAttempt, attemptEvents]

theorem detectAttempt_divisor (P : Platform) (bus : busDevice_t) :
    (detectAttempt P bus).2.divisor = bus.divisor := by
  simp [detectAttempt]

theorem detectAttempt_regRx (P : Platform) (bus : busDevice_t) :
    (detectAttempt P bus).2.regRx = fun k => bus.regRx (k + 1) := by
  simp [detectAttempt]

theorem attemptEvents_succ_front (clk reg : Nat) (rx : Nat → Nat) (count : Nat) :
    attemptEvents clk reg rx (count + 1)
      = attemptEvents clk reg rx 1 ++ attemptEvents clk reg (fun k => rx (k + 1)) count := by
  simp [attemptEvents]

/-- The loop started with `n` in `attemptsRemaining` makes `m + 1` attempts for
some `m ≤ n`: the answers before the last one mismatch, and either the last
one matches and the loop is left with the sensor found, or it mismatches, all
`n + 1` attempts are used up and the function returns `MPU_NONE`. -/
theorem detectLoop_spec (P : Platform) :
    ∀ (n : Nat) (bus : busDevice_t), ∃ m, m ≤ n ∧
      (∀ j, j < m → answer bus j ≠ P.ICM42605_WHO_AM_I_CONST) ∧
      (detectLoop P n bus).2.trace
        = bus.trace ++ attemptEvents bus.divisor P.MPU_RA_WHO_AM_I bus.regRx (m + 1) ∧
      (detectLoop P n bus).2.divisor = bus.divisor ∧
      ((answer bus m = P.ICM42605_WHO_AM_I_CONST ∧
          (detectLoop P n bus).1 = .left ICM_42605_SPI) ∨
        (answer bus m ≠ P.ICM42605_WHO_AM_I_CONST ∧ m = n ∧
          (detectLoop P n bus).1 = .returned MPU_NONE)) := by
  intro n
  induction n with
  | zero =>
    intro bus
    refine ⟨0, le_refl _, by intro j hj; omega, ?_, ?_, ?_⟩
    · by_cases h : answer bus 0 = P.ICM42605_WHO_AM_I_CONST <;>
        simp [detectLoop, detectAttempt_fst, detectAttempt_trace, h]
    · by_cases h : answer bus 0 = P.ICM42605_WHO_AM_I_CONST <;>
        simp [detectLoop, detectAttempt_fst, detectAttempt_divisor, h]
    · by_cases h : answer bus 0 = P.ICM42605_WHO_AM_I_CONST <;>
        simp [detectLoop, detectAttempt_fst, h]
  | succ n ih =>
    intro bus
    by_cases h : answer bus 0 = P.ICM42605_WHO_AM_I_CONST
    · refine ⟨0, Nat.zero_le _, by intro j hj; omega, ?_, ?_, ?_⟩
      · simp [detectLoop, detectAttempt_fst, detectAttempt_trace, h]
      · simp [detectLoop, detectAttempt_fst, detectAttempt_divisor, h]
      · simp [detectLoop, detectAttempt_fst, h]
    · obtain ⟨m, hm, hpre, htr, hdiv, hlast⟩ := ih (detectAttempt P bus).2
      have hans : ∀ k, answer (detectAttempt P bus).2 k = answer bus (k + 1) := by
        intro k
        simp [answer, detectAttempt_regRx]
      have hstep : detectLoop P (n + 1) bus = detectLoop P n (detectAttempt P bus).2 := by
        simp [detectLoop, detectAttempt_fst, h]
      refine ⟨m + 1, by omega, ?_, ?_, ?_, ?_⟩
      · intro j hj
        cases j with
        | zero => exact h
        | succ j => rw [← hans]; exact hpre j (by omega)
      · rw [hstep, htr, detectAttempt_trace, detectAttempt_divisor, detectAttempt_regRx,
          attemptEvents_succ_front _ _ bus.regRx (m + 1), List.append_assoc]
      · rw [hstep, hdiv, detectAttempt_divisor]
      · rw [hstep]
        rcases hlast with ⟨h1, h2⟩ | ⟨h1, h2, h3⟩
        · exact Or.inl ⟨by rw [← hans]; exact h1, h2⟩
        · exact Or.inr ⟨by rw [← hans]; exact h1, by omega, h3⟩

theorem countReads_cons (e : BusEvent) (evs : List BusEvent) :
    countReads (e :: evs) = (if e.op.isRead then 1 else 0) + countReads evs := by
  simp only [countReads, List.filter_cons]
  split <;> simp [Nat.add_comm]

theorem countDelays_cons (e : BusEvent) (evs : List BusEvent) :
    countDelays (e :: evs) = (if e.op.isDelay then 1 else 0) + countDelays evs := by
  simp only [countDelays, List.filter_cons]
  split <;> simp [Nat.add_comm]

theorem countReads_append (xs ys : List BusEvent) :
    countReads (xs ++ ys) = countReads xs + countReads ys := by
  simp [countReads, List.filter_append]

theorem countDelays_append (xs ys : List BusEvent) :
    countDelays (xs ++ ys) = countDelays xs + countDelays ys := by
  simp [countDelays, List.filter_append]

theorem countReads_attemptEvents (clk reg : Nat) :
    ∀ (count : Nat) (rx : Nat → Nat), countReads (attemptEvents clk reg rx count) = count := by
  intro count
  induction count with
  | zero => intro rx; rfl
  | succ n ih =>
    intro rx
    simp only [attemptEvents, countReads_cons, ih]
    show 0 + (1 + n) = n + 1
    omega

theorem countDelays_attemptEvents (clk reg : Nat) :
    ∀ (count : Nat) (rx : Nat → Nat), countDelays (attemptEvents clk reg rx count) = count := by
  intro count
  induction count with
  | zero => intro rx; rfl
  | succ n ih =>
    intro rx
    simp only [attemptEvents, countDelays_cons, ih]
    show 1 + (0 + n) = n + 1
    omega

theorem mem_attemptEvents (clk reg : Nat) :
    ∀ (count : Nat) (rx : Nat → Nat) (e : BusEvent), e ∈ attemptEvents clk reg rx count →
      e.clk = clk ∧ (e.op = .delay 150 ∨ ∃ v, e.op = .readRegister reg v) := by
  intro count
  induction count with
  | zero => intro rx e he; simp [attemptEvents] at he
  | succ n ih =>
    intro rx e he
    simp only [attemptEvents, List.mem_cons] at he
    rcases he with rfl | rfl | he
    · exact ⟨rfl, Or.inl rfl⟩
    · exact ⟨rfl, Or.inr ⟨_, rfl⟩⟩
    · exact ih _ e he

theorem setDivisor_free_attemptEvents (clk reg : Nat) (count : Nat) (rx : Nat → Nat) :
    (attemptEvents clk reg rx count).filter (fun e => e.op.isSetDivisor) = [] := by
  rw [List.filter_eq_nil_iff]
  intro e he
  rcases (mem_attemptEvents clk reg count rx e he).2 with h | ⟨v, h⟩ <;>
    simp [h, BusOp.isSetDivisor]

/-- What a call of `icm42605SpiDetect` does, for every bus and every device:
it makes `m + 1` attempts with `m ≤ 20`, the first `m` answers mismatch, and
either answer `m` matches (sensor found, clock raised as the last event) or
all 21 answers mismatch (`MPU_NONE`, clock left at the initialization speed). -/
theorem icm42605SpiDetect_spec (P : Platform) (bus : busDevice_t) :
    ∃ m, m ≤ 20 ∧ (∀ j, j < m → answer bus j ≠ P.ICM42605_WHO_AM_I_CONST) ∧
      ((answer bus m = P.ICM42605_WHO_AM_I_CONST ∧
          (icm42605SpiDetect P bus).1 = ICM_42605_SPI ∧
          (icm42605SpiDetect P bus).2.divisor = maxDivisor P ∧
          issued bus (icm42605SpiDetect P bus).2
            = detectPrologue P bus
              ++ attemptEvents (initDivisor P) P.MPU_RA_WHO_AM_I bus.regRx (m + 1)
              ++ [⟨initDivisor P, .setDivisor (maxDivisor P)⟩]) ∨
        (answer bus m ≠ P.ICM42605_WHO_AM_I_CONST ∧ m = 20 ∧
          (icm42605SpiDetect P bus).1 = MPU_NONE ∧
          (icm42605SpiDetect P bus).2.divisor = initDivisor P ∧
          issued bus (icm42605SpiDetect P bus).2
            = detectPrologue P bus
              ++ attemptEvents (initDivisor P) P.MPU_RA_WHO_AM_I bus.regRx (m + 1))) := by
  obtain ⟨m, hm, hpre, htr, hdiv, hlast⟩ := detectLoop_spec P 20
    (spiBusWriteRegister ICM42605_RA_PWR_MGMT0 0x00
      (spiSetDivisor (P.spiCalculateDivider ICM42605_MAX_SPI_INIT_CLK_HZ) bus))
  have hans : ∀ k, answer (spiBusWriteRegister ICM42605_RA_PWR_MGMT0 0x00
      (spiSetDivisor (P.spiCalculateDivider ICM42605_MAX_SPI_INIT_CLK_HZ) bus)) k
        = answer bus k := fun k => rfl
  simp only [hans] at hpre hlast
  refine ⟨m, hm, hpre, ?_⟩
  rcases hres : detectLoop P 20 (spiBusWriteRegister ICM42605_RA_PWR_MGMT0 0x00
      (spiSetDivisor (P.spiCalculateDivider ICM42605_MAX_SPI_INIT_CLK_HZ) bus)) with ⟨ex, b⟩
  rw [hres] at htr hdiv hlast
  simp only at htr hdiv hlast
  rcases hlast with ⟨h1, h2⟩ | ⟨h1, h2, h3⟩
  · left
    subst h2
    refine ⟨h1, ?_, ?_, ?_⟩
    · simp [icm42605SpiDetect, hres]
    · simp [icm42605SpiDetect, hres, maxDivisor]
    · apply issued_of_trace_eq
      simp [icm42605SpiDetect, hres, htr, hdiv, detectPrologue, initDivisor, maxDivisor]
  · right
    subst h3
    refine ⟨h1, h2, ?_, ?_, ?_⟩
    · simp [icm42605SpiDetect, hres]
    · simp [icm42605SpiDetect, hres, hdiv, initDivisor]
    · apply issued_of_trace_eq
      simp [icm42605SpiDetect, hres, htr, detectPrologue, initDivisor]

/-! ## Identity detection: the claims -/

/-- C2: whenever one of the first 20 answers of the identity register is the
expected constant, `icm42605SpiDetect` returns `ICM_42605_SPI`, and it stops at
the first match (a first match at position `k`, counted from 0, is the last of
`k + 1` reads); it returns `MPU_NONE` only if the first 20 answers all mismatch. -/
theorem C2_detect_succeeds_on_match_in_first_20 (P : Platform) (bus : busDevice_t) :
    ((∃ k, k < 20 ∧ answer bus k = P.ICM42605_WHO_AM_I_CONST) →
        (icm42605SpiDetect P bus).1 = ICM_42605_SPI) ∧
    (∀ k, k < 20 → (∀ j, j < k → answer bus j ≠ P.ICM42605_WHO_AM_I_CONST) →
        answer bus k = P.ICM42605_WHO_AM_I_CONST →
        (icm42605SpiDetect P bus).1 = ICM_42605_SPI ∧
        countReads (issued bus (icm42605SpiDetect P bus).2) = k + 1) ∧
    ((icm42605SpiDetect P bus).1 = MPU_NONE →
        ∀ k, k < 20 → answer bus k ≠ P.ICM42605_WHO_AM_I_CONST) := by
  obtain ⟨m, hm, hpre, hcase⟩ := icm42605SpiDetect_spec P bus
  rcases hcase with ⟨hmatch, hres, _, hev⟩ | ⟨hmis, hm20, hres, _, _⟩
  · refine ⟨fun _ => hres, ?_, ?_⟩
    · intro k _ hk hkm
      have hkeq : k = m := by
        rcases Nat.lt_trichotomy k m with h | h | h
        · exact absurd hkm (hpre k h)
        · exact h
        · exact absurd hmatch (hk m h)
      subst hkeq
      refine ⟨hres, ?_⟩
      rw [hev, countReads_append, countReads_append, countReads_attemptEvents]
      simp [detectPrologue, countReads_cons, BusOp.isRead, countReads]
    · intro h
      rw [hres] at h
      exact absurd h (by decide)
  · subst hm20
    refine ⟨?_, ?_, ?_⟩
    · rintro ⟨k, hk, hkm⟩
      exact absurd hkm (hpre k hk)
    · intro k hk _ hkm
      exact absurd hkm (hpre k hk)
    · intro _ k hk
      exact hpre k hk

/-- C2, on a device whose sixth answer is the first match, and on a device
that never matches. -/
theorem C2_detect_succeeds_on_match_in_first_20_witness :
    ((icm42605SpiDetect (examplePlatform false)
        (exampleBus 2 (fun k => if k = 5 then 0x42 else 0) (false, fun _ => 0))).1
          = ICM_42605_SPI ∧
      countReads (issued (exampleBus 2 (fun k => if k = 5 then 0x42 else 0) (false, fun _ => 0))
        (icm42605SpiDetect (examplePlatform false)
          (exampleBus 2 (fun k => if k = 5 then 0x42 else 0) (false, fun _ => 0))).2) = 5 + 1) ∧
    (∀ k, k < 20 → answer (exampleBus 2 (fun _ => 0xFF) (false, fun _ => 0)) k
        ≠ (examplePlatform false).ICM42605_WHO_AM_I_CONST) :=
  ⟨(C2_detect_succeeds_on_match_in_first_20 (examplePlatform false)
      (exampleBus 2 (fun k => if k = 5 then 0x42 else 0) (false, fun _ => 0))).2.1 5
      (by decide) (by decide) (by decide),
   (C2_detect_succeeds_on_match_in_first_20 (examplePlatform false)
      (exampleBus 2 (fun _ => 0xFF) (false, fun _ => 0))).2.2 (by decide)⟩

/-- C3 as stated fails: on a device that never answers with the expected
constant the function waits 21 times and reads 21 times, and on a device
whose first 20 answers mismatch and whose 21st matches it does read a 21st
time and returns `ICM_42605_SPI`, not `MPU_NONE`. -/
theorem C3_counterexample :
    (¬ countReads (issued (exampleBus 2 (fun _ => 0) (false, fun _ => 0))
        (icm42605SpiDetect (examplePlatform false)
          (exampleBus 2 (fun _ => 0) (false, fun _ => 0))).2) ≤ 20) ∧
    (¬ countDelays (issued (exampleBus 2 (fun _ => 0) (false, fun _ => 0))
        (icm42605SpiDetect (examplePlatform false)
          (exampleBus 2 (fun _ => 0) (false, fun _ => 0))).2) ≤ 20) ∧
    ((∀ k, k < 20 → answer (exampleBus 2 (fun k => if k = 20 then 0x42 else 0) (false, fun _ => 0)) k
        ≠ (examplePlatform false).ICM42605_WHO_AM_I_CONST) ∧
      (icm42605SpiDetect (examplePlatform false)
        (exampleBus 2 (fun k => if k = 20 then 0x42 else 0) (false, fun _ => 0))).1
          ≠ MPU_NONE ∧
      countReads (issued (exampleBus 2 (fun k => if k = 20 then 0x42 else 0) (false, fun _ => 0))
        (icm42605SpiDetect (examplePlatform false)
          (exampleBus 2 (fun k => if k = 20 then 0x42 else 0) (false, fun _ => 0))).2) = 21) := by
  decide

/-- C3, amended: `icm42605SpiDetect` makes at most 21 attempts (the first one
and 20 retries): it issues at most 21 waits, each a `delay(150)`, and at most
21 reads, each of the identity register, and when the first 21 answers all
mismatch it returns `MPU_NONE` after exactly 21 waits and 21 reads. -/
theorem C3_detect_at_most_21_attempts (P : Platform) (bus : busDevice_t) :
    countReads (issued bus (icm42605SpiDetect P bus).2) ≤ 21 ∧
    countDelays (issued bus (icm42605SpiDetect P bus).2) ≤ 21 ∧
    (∀ e, e ∈ issued bus (icm42605SpiDetect P bus).2 → e.op.isDelay = true → e.op = .delay 150) ∧
    (∀ e, e ∈ issued bus (icm42605SpiDetect P bus).2 → e.op.isRead = true →
        ∃ v, e.op = .readRegister P.MPU_RA_WHO_AM_I v) ∧
    ((∀ k, k < 21 → answer bus k ≠ P.ICM42605_WHO_AM_I_CONST) →
        (icm42605SpiDetect P bus).1 = MPU_NONE ∧
        countReads (issued bus (icm42605SpiDetect P bus).2) = 21 ∧
        countDelays (issued bus (icm42605SpiDetect P bus).2) = 21) := by
  obtain ⟨m, hm, hpre, hcase⟩ := icm42605SpiDetect_spec P bus
  have hshape : ∃ tl, issued bus (icm42605SpiDetect P bus).2
      = detectPrologue P bus
        ++ attemptEvents (initDivisor P) P.MPU_RA_WHO_AM_I bus.regRx (m + 1) ++ tl ∧
      (tl = [] ∨ tl = [⟨initDivisor P, .setDivisor (maxDivisor P)⟩]) := by
    rcases hcase with ⟨_, _, _, hev⟩ | ⟨_, _, _, _, hev⟩
    · exact ⟨_, hev, Or.inr rfl⟩
    · exact ⟨[], by rw [hev, List.append_nil], Or.inl rfl⟩
  obtain ⟨tl, hev, htl⟩ := hshape
  have hreads : countReads (issued bus (icm42605SpiDetect P bus).2) = m + 1 := by
    rw [hev, countReads_append, countReads_append, countReads_attemptEvents]
    rcases htl with rfl | rfl <;>
      simp [detectPrologue, countReads_cons, BusOp.isRead, countReads]
  have hdelays : countDelays (issued bus (icm42605SpiDetect P bus).2) = m + 1 := by
    rw [hev, countDelays_append, countDelays_append, countDelays_attemptEvents]
    rcases htl with rfl | rfl <;>
      simp [detectPrologue, countDelays_cons, BusOp.isDelay, countDelays]
  have hmem : ∀ e, e ∈ issued bus (icm42605SpiDetect P bus).2 →
      e.op = .setDivisor (initDivisor P) ∨ e.op = .writeRegister ICM42605_RA_PWR_MGMT0 0 ∨
      e.op = .delay 150 ∨ (∃ v, e.op = .readRegister P.MPU_RA_WHO_AM_I v) ∨
      e.op = .setDivisor (maxDivisor P) := by
    intro e he
    rw [hev] at he
    simp only [List.mem_append, detectPrologue, List.mem_cons, List.mem_singleton,
      List.not_mem_nil, or_false] at he
    rcases he with (((rfl | rfl) | he) | he)
    · exact Or.inl rfl
    · exact Or.inr (Or.inl rfl)
    · rcases (mem_attemptEvents _ _ _ _ e he).2 with h | h
      · exact Or.inr (Or.inr (Or.inl h))
      · exact Or.inr (Or.inr (Or.inr (Or.inl h)))
    · rcases htl with rfl | rfl
      · simp at he
      · simp only [List.mem_singleton] at he
        subst he
        exact Or.inr (Or.inr (Or.inr (Or.inr rfl)))
  refine ⟨by omega, by omega, ?_, ?_, ?_⟩
  · intro e he hd
    rcases hmem e he with h | h | h | ⟨v, h⟩ | h
    · rw [h] at hd; simp [BusOp.isDelay] at hd
    · rw [h] at hd; simp [BusOp.isDelay] at hd
    · exact h
    · rw [h] at hd; simp [BusOp.isDelay] at hd
    · rw [h] at hd; simp [BusOp.isDelay] at hd
  · intro e he hr
    rcases hmem e he with h | h | h | h | h
    · rw [h] at hr; simp [BusOp.isRead] at hr
    · rw [h] at hr; simp [BusOp.isRead] at hr
    · rw [h] at hr; simp [BusOp.isRead] at hr
    · exact h
    · rw [h] at hr; simp [BusOp.isRead] at hr
  · intro hall
    rcases hcase with ⟨hmatch, _, _, _⟩ | ⟨_, hm20, hres, _, _⟩
    · exact absurd hmatch (hall m (by omega))
    · exact ⟨hres, by omega, by omega⟩

/-- C3 (amended), on a device that always answers 0xFF. -/
theorem C3_detect_at_most_21_attempts_witness :
    (∀ k, k < 21 → answer (exampleBus 2 (fun _ => 0xFF) (false, fun _ => 0)) k
        ≠ (examplePlatform false).ICM42605_WHO_AM_I_CONST) ∧
    (icm42605SpiDetect (examplePlatform false)
        (exampleBus 2 (fun _ => 0xFF) (false, fun _ => 0))).1 = MPU_NONE ∧
    countReads (issued (exampleBus 2 (fun _ => 0xFF) (false, fun _ => 0))
        (icm42605SpiDetect (examplePlatform false)
          (exampleBus 2 (fun _ => 0xFF) (false, fun _ => 0))).2) = 21 ∧
    countDelays (issued (exampleBus 2 (fun _ => 0xFF) (false, fun _ => 0))
        (icm42605SpiDetect (examplePlatform false)
          (exampleBus 2 (fun _ => 0xFF) (false, fun _ => 0))).2) = 21 :=
  ⟨by decide,
   (C3_detect_at_most_21_attempts (examplePlatform false)
      (exampleBus 2 (fun _ => 0xFF) (false, fun _ => 0))).2.2.2.2 (by decide)⟩

/-- C9: `icm42605SpiDetect` first sets the clock to the initialization speed;
every later event, in particular every write and every read, is issued at
that speed; when it returns `ICM_42605_SPI` its last event raises the clock to
the maximum operating speed, which is the speed the bus is left at; when it
returns `MPU_NONE` the first event is the only change of the clock and the bus
is left at the initialization speed. -/
theorem C9_detect_bus_clock (P : Platform) (bus : busDevice_t) :
    (issued bus (icm42605SpiDetect P bus).2).head?
        = some ⟨bus.divisor, .setDivisor (initDivisor P)⟩ ∧
    (∀ e, e ∈ (issued bus (icm42605SpiDetect P bus).2).tail → e.clk = initDivisor P) ∧
    (∀ e, e ∈ issued bus (icm42605SpiDetect P bus).2 →
        e.op.isWrite = true ∨ e.op.isRead = true → e.clk = initDivisor P) ∧
    ((icm42605SpiDetect P bus).1 = ICM_42605_SPI →
        (issued bus (icm42605SpiDetect P bus).2).getLast?
          = some ⟨initDivisor P, .setDivisor (maxDivisor P)⟩ ∧
        (issued bus (icm42605SpiDetect P bus).2).filter (fun e => e.op.isSetDivisor)
          = [⟨bus.divisor, .setDivisor (initDivisor P)⟩,
             ⟨initDivisor P, .setDivisor (maxDivisor P)⟩] ∧
        (icm42605SpiDetect P bus).2.divisor = maxDivisor P) ∧
    ((icm42605SpiDetect P bus).1 = MPU_NONE →
        (issued bus (icm42605SpiDetect P bus).2).filter (fun e => e.op.isSetDivisor)
          = [⟨bus.divisor, .setDivisor (initDivisor P)⟩] ∧
        (icm42605SpiDetect P bus).2.divisor = initDivisor P) := by
  obtain ⟨m, hm, hpre, hcase⟩ := icm42605SpiDetect_spec P bus
  have hshape : ∃ tl, issued bus (icm42605SpiDetect P bus).2
      = detectPrologue P bus
        ++ attemptEvents (initDivisor P) P.MPU_RA_WHO_AM_I bus.regRx (m + 1) ++ tl ∧
      (tl = [] ∨ tl = [⟨initDivisor P, .setDivisor (maxDivisor P)⟩]) := by
    rcases hcase with ⟨_, _, _, hev⟩ | ⟨_, _, _, _, hev⟩
    · exact ⟨_, hev, Or.inr rfl⟩
    · exact ⟨[], by rw [hev, List.append_nil], Or.inl rfl⟩
  obtain ⟨tl, hev, htl⟩ := hshape
  have htail : ∀ e, e ∈ (issued bus (icm42605SpiDetect P bus).2).tail →
      e.clk = initDivisor P := by
    intro e he
    rw [hev] at he
    simp only [detectPrologue, List.cons_append, List.nil_append, List.tail_cons,
      List.mem_cons, List.mem_append] at he
    rcases he with rfl | he | he
    · rfl
    · exact (mem_attemptEvents _ _ _ _ e he).1
    · rcases htl with rfl | rfl
      · simp at he
      · simp only [List.mem_singleton] at he
        subst he
        rfl
  refine ⟨?_, htail, ?_, ?_, ?_⟩
  · rw [hev]
    simp [detectPrologue]
  · intro e he hwr
    have hsplit : issued bus (icm42605SpiDetect P bus).2
        = ⟨bus.divisor, .setDivisor (initDivisor P)⟩
          :: (issued bus (icm42605SpiDetect P bus).2).tail := by
      rw [hev]
      simp [detectPrologue]
    rw [hsplit] at he
    rcases List.mem_cons.mp he with rfl | he
    · simp [BusOp.isWrite, BusOp.isRead] at hwr
    · exact htail e he
  · intro hres
    rcases hcase with ⟨_, _, hdiv, hev2⟩ | ⟨_, _, hnone, _, _⟩
    · refine ⟨?_, ?_, hdiv⟩
      · rw [hev2]
        simp
      · rw [hev2, List.filter_append, List.filter_append, setDivisor_free_attemptEvents]
        simp [detectPrologue, List.filter_cons, BusOp.isSetDivisor]
    · rw [hnone] at hres
      exact absurd hres (by decide)
  · intro hres
    rcases hcase with ⟨_, hfound, _, _⟩ | ⟨_, _, _, hdiv, hev2⟩
    · rw [hfound] at hres
      exact absurd hres (by decide)
    · refine ⟨?_, hdiv⟩
      rw [hev2, List.filter_append, setDivisor_free_attemptEvents]
      simp [detectPrologue, List.filter_cons, BusOp.isSetDivisor]

/-- C9, on a device whose third answer matches and on one that never matches. -/
theorem C9_detect_bus_clock_witness :
    (icm42605SpiDetect (examplePlatform false)
        (exampleBus 2 (fun k => if k = 2 then 0x42 else 0) (false, fun _ => 0))).2.divisor
          = maxDivisor (examplePlatform false) ∧
    (icm42605SpiDetect (examplePlatform false)
        (exampleBus 2 (fun _ => 0) (false, fun _ => 0))).2.divisor
          = initDivisor (examplePlatform false) :=
  ⟨((C9_detect_bus_clock (examplePlatform false)
      (exampleBus 2 (fun k => if k = 2 then 0x42 else 0) (false, fun _ => 0))).2.2.2.1
        (by decide)).2.2,
   ((C9_detect_bus_clock (examplePlatform false)
      (exampleBus 2 (fun _ => 0) (false, fun _ => 0))).2.2.2.2 (by decide)).2⟩

/-! ## Steady-state reads: the claims -/

theorem toInt16_pair (hi lo : Nat) (hhi : hi < 256) (hlo : lo < 256) :
    toInt16 (((hi % 256) <<< 8) ||| (lo % 256)) = bigEndianSigned16 hi lo := by
  have hor : ((hi % 256) <<< 8) ||| (lo % 256) = hi * 256 + lo := by
    rw [Nat.mod_eq_of_lt hhi, Nat.mod_eq_of_lt hlo, Nat.shiftLeft_eq]
    have h := Nat.mul_add_lt_is_or (show lo < 2 ^ 8 by omega) hi
    rw [Nat.mul_comm hi (2 ^ 8), ← h]
  have hlt : hi * 256 + lo < 65536 := by omega
  rw [hor]
  simp only [toInt16, bigEndianSigned16, Nat.mod_eq_of_lt hlt]

theorem gyroRead_ok (gyro : gyroDev_t) (d : Nat → Nat) (hd : gyro.bus.burstRx 0 = (true, d)) :
    (icm42605GyroReadSPI gyro).1 = true ∧
    (icm42605GyroReadSPI gyro).2.gyroADCRaw
      = ⟨toInt16 (((d 1 % 256) <<< 8) ||| (d 2 % 256)),
         toInt16 (((d 3 % 256) <<< 8) ||| (d 4 % 256)),
         toInt16 (((d 5 % 256) <<< 8) ||| (d 6 % 256))⟩ := by
  simp [icm42605GyroReadSPI, spiBusTransfer, hd]

theorem accRead_ok (acc : accDev_t) (d : Nat → Nat) (hd : acc.bus.burstRx 0 = (true, d)) :
    (icm42605AccRead acc).1 = true ∧
    (icm42605AccRead acc).2.ADCRaw
      = ⟨toInt16 (((d 0 % 256) <<< 8) ||| (d 1 % 256)),
         toInt16 (((d 2 % 256) <<< 8) ||| (d 3 % 256)),
         toInt16 (((d 4 % 256) <<< 8) ||| (d 5 % 256))⟩ := by
  simp [icm42605AccRead, busReadRegisterBuffer, hd]

/-- C4: after a successful 7-byte transfer with answer bytes `d 0 .. d 6`
`icm42605GyroReadSPI` returns true and X, Y, Z are the signed 16-bit values of
the big-endian pairs `(d 1, d 2)`, `(d 3, d 4)`, `(d 5, d 6)`; after a
successful 6-byte read `icm42605AccRead` does the same with `(d 0, d 1)`,
`(d 2, d 3)`, `(d 4, d 5)`; and the bytes `status, 1, 2, 3, 4, 5, 6` give
X = 0x0102, Y = 0x0304, Z = 0x0506 whatever the status byte is. -/
theorem C4_sample_decoding :
    (∀ (gyro : gyroDev_t) (d : Nat → Nat), gyro.bus.burstRx 0 = (true, d) →
      (∀ i, i < 7 → d i < 256) →
        (icm42605GyroReadSPI gyro).1 = true ∧
        (icm42605GyroReadSPI gyro).2.gyroADCRaw.X = bigEndianSigned16 (d 1) (d 2) ∧
        (icm42605GyroReadSPI gyro).2.gyroADCRaw.Y = bigEndianSigned16 (d 3) (d 4) ∧
        (icm42605GyroReadSPI gyro).2.gyroADCRaw.Z = bigEndianSigned16 (d 5) (d 6)) ∧
    (∀ (acc : accDev_t) (d : Nat → Nat), acc.bus.burstRx 0 = (true, d) →
      (∀ i, i < 6 → d i < 256) →
        (icm42605AccRead acc).1 = true ∧
        (icm42605AccRead acc).2.ADCRaw.X = bigEndianSigned16 (d 0) (d 1) ∧
        (icm42605AccRead acc).2.ADCRaw.Y = bigEndianSigned16 (d 2) (d 3) ∧
        (icm42605AccRead acc).2.ADCRaw.Z = bigEndianSigned16 (d 4) (d 5)) ∧
    (∀ (gyro : gyroDev_t) (status : Nat),
      gyro.bus.burstRx 0 = (true, gyroBurst status 0x01 0x02 0x03 0x04 0x05 0x06) →
        (icm42605GyroReadSPI gyro).1 = true ∧
        (icm42605GyroReadSPI gyro).2.gyroADCRaw = ⟨0x0102, 0x0304, 0x0506⟩) := by
  refine ⟨?_, ?_, ?_⟩
  · intro gyro d hd hb
    obtain ⟨h1, h2⟩ := gyroRead_ok gyro d hd
    rw [h2]
    refine ⟨h1, ?_, ?_, ?_⟩
    · exact toInt16_pair _ _ (hb 1 (by omega)) (hb 2 (by omega))
    · exact toInt16_pair _ _ (hb 3 (by omega)) (hb 4 (by omega))
    · exact toInt16_pair _ _ (hb 5 (by omega)) (hb 6 (by omega))
  · intro acc d hd hb
    obtain ⟨h1, h2⟩ := accRead_ok acc d hd
    rw [h2]
    refine ⟨h1, ?_, ?_, ?_⟩
    · exact toInt16_pair _ _ (hb 0 (by omega)) (hb 1 (by omega))
    · exact toInt16_pair _ _ (hb 2 (by omega)) (hb 3 (by omega))
    · exact toInt16_pair _ _ (hb 4 (by omega)) (hb 5 (by omega))
  · intro gyro status hd
    obtain ⟨h1, h2⟩ := gyroRead_ok gyro _ hd
    rw [h2]
    refine ⟨h1, ?_⟩
    have e1 : gyroBurst status 0x01 0x02 0x03 0x04 0x05 0x06 1 = 1 := rfl
    have e2 : gyroBurst status 0x01 0x02 0x03 0x04 0x05 0x06 2 = 2 := rfl
    have e3 : gyroBurst status 0x01 0x02 0x03 0x04 0x05 0x06 3 = 3 := rfl
    have e4 : gyroBurst status 0x01 0x02 0x03 0x04 0x05 0x06 4 = 4 := rfl
    have e5 : gyroBurst status 0x01 0x02 0x03 0x04 0x05 0x06 5 = 5 := rfl
    have e6 : gyroBurst status 0x01 0x02 0x03 0x04 0x05 0x06 6 = 6 := rfl
    rw [e1, e2, e3, e4, e5, e6]
    decide

/-- C4, on the bytes `0x55, 0x80, 0x00, 0xFF, 0xFE, 0x7F, 0xFF` for the gyro
(X = -32768, Y = -2, Z = 32767), on `0x12, 0x34, 0xFF, 0xFF, 0x00, 0x00` for
the accelerometer, and on the bytes of the spec. -/
theorem C4_sample_decoding_witness :
    ((icm42605GyroReadSPI
        (exampleGyro ⟨0, 0, 0⟩ (true, gyroBurst 0x55 0x80 0x00 0xFF 0xFE 0x7F 0xFF))).1 = true ∧
      (icm42605GyroReadSPI
        (exampleGyro ⟨0, 0, 0⟩ (true, gyroBurst 0x55 0x80 0x00 0xFF 0xFE 0x7F 0xFF))).2.gyroADCRaw.X
          = bigEndianSigned16 0x80 0x00 ∧
      (icm42605GyroReadSPI
        (exampleGyro ⟨0, 0, 0⟩ (true, gyroBurst 0x55 0x80 0x00 0xFF 0xFE 0x7F 0xFF))).2.gyroADCRaw.Y
          = bigEndianSigned16 0xFF 0xFE ∧
      (icm42605GyroReadSPI
        (exampleGyro ⟨0, 0, 0⟩ (true, gyroBurst 0x55 0x80 0x00 0xFF 0xFE 0x7F 0xFF))).2.gyroADCRaw.Z
          = bigEndianSigned16 0x7F 0xFF) ∧
    ((icm42605AccRead
        (exampleAcc ⟨0, 0, 0⟩ (true, gyroBurst 0x12 0x34 0xFF 0xFF 0x00 0x00 0))).1 = true ∧
      (icm42605AccRead
        (exampleAcc ⟨0, 0, 0⟩ (true, gyroBurst 0x12 0x34 0xFF 0xFF 0x00 0x00 0))).2.ADCRaw.X
          = bigEndianSigned16 0x12 0x34 ∧
      (icm42605AccRead
        (exampleAcc ⟨0, 0, 0⟩ (true, gyroBurst 0x12 0x34 0xFF 0xFF 0x00 0x00 0))).2.ADCRaw.Y
          = bigEndianSigned16 0xFF 0xFF ∧
      (icm42605AccRead
        (exampleAcc ⟨0, 0, 0⟩ (true, gyroBurst 0x12 0x34 0xFF 0xFF 0x00 0x00 0))).2.ADCRaw.Z
          = bigEndianSigned16 0x00 0x00) ∧
    ((icm42605GyroReadSPI
        (exampleGyro ⟨7, 8, 9⟩ (true, gyroBurst 0xA5 0x01 0x02 0x03 0x04 0x05 0x06))).1 = true ∧
      (icm42605GyroReadSPI
        (exampleGyro ⟨7, 8, 9⟩ (true, gyroBurst 0xA5 0x01 0x02 0x03 0x04 0x05 0x06))).2.gyroADCRaw
          = ⟨0x0102, 0x0304, 0x0506⟩) :=
  ⟨C4_sample_decoding.1
      (exampleGyro ⟨0, 0, 0⟩ (true, gyroBurst 0x55 0x80 0x00 0xFF 0xFE 0x7F 0xFF))
      (gyroBurst 0x55 0x80 0x00 0xFF 0xFE 0x7F 0xFF) rfl (by decide),
   C4_sample_decoding.2.1
      (exampleAcc ⟨0, 0, 0⟩ (true, gyroBurst 0x12 0x34 0xFF 0xFF 0x00 0x00 0))
      (gyroBurst 0x12 0x34 0xFF 0xFF 0x00 0x00 0) rfl (by decide),
   C4_sample_decoding.2.2
      (exampleGyro ⟨7, 8, 9⟩ (true, gyroBurst 0xA5 0x01 0x02 0x03 0x04 0x05 0x06)) 0xA5 rfl⟩

/-- C5: when the transfer reports failure `icm42605GyroReadSPI` returns false
and leaves the three gyro sample slots as they were, and `icm42605AccRead`
returns false and leaves the three accelerometer sample slots as they were,
whatever bytes the failed transfer delivered. -/
theorem C5_failed_read_keeps_samples :
    (∀ (gyro : gyroDev_t) (d : Nat → Nat), gyro.bus.burstRx 0 = (false, d) →
        (icm42605GyroReadSPI gyro).1 = false ∧
        (icm42605GyroReadSPI gyro).2.gyroADCRaw = gyro.gyroADCRaw) ∧
    (∀ (acc : accDev_t) (d : Nat → Nat), acc.bus.burstRx 0 = (false, d) →
        (icm42605AccRead acc).1 = false ∧
        (icm42605AccRead acc).2.ADCRaw = acc.ADCRaw) := by
  refine ⟨?_, ?_⟩
  · intro gyro d hd
    simp [icm42605GyroReadSPI, spiBusTransfer, hd]
  · intro acc d hd
    simp [icm42605AccRead, busReadRegisterBuffer, hd]

/-- C5, on a failed transfer that delivered the bytes `0xFF` and prior samples
`(11, -22, 33)`. -/
theorem C5_failed_read_keeps_samples_witness :
    ((icm42605GyroReadSPI (exampleGyro ⟨11, -22, 33⟩ (false, fun _ => 0xFF))).1 = false ∧
      (icm42605GyroReadSPI (exampleGyro ⟨11, -22, 33⟩ (false, fun _ => 0xFF))).2.gyroADCRaw
        = ⟨11, -22, 33⟩) ∧
    ((icm42605AccRead (exampleAcc ⟨11, -22, 33⟩ (false, fun _ => 0xFF))).1 = false ∧
      (icm42605AccRead (exampleAcc ⟨11, -22, 33⟩ (false, fun _ => 0xFF))).2.ADCRaw
        = ⟨11, -22, 33⟩) :=
  ⟨C5_failed_read_keeps_samples.1 (exampleGyro ⟨11, -22, 33⟩ (false, fun _ => 0xFF))
      (fun _ => 0xFF) rfl,
   C5_failed_read_keeps_samples.2 (exampleAcc ⟨11, -22, 33⟩ (false, fun _ => 0xFF))
      (fun _ => 0xFF) rfl⟩

/-! ## Lemmas on the bring-up -/

theorem odrSearch_table (desired : Nat) :
    odrSearch desired icm42605PkhzToSupportedODRMap
      = if desired = 8 then some 3 else if desired = 4 then some 4
        else if desired = 2 then some 5 else if desired = 1 then some 6 else none := by
  simp only [icm42605PkhzToSupportedODRMap, odrSearch]
  by_cases h8 : desired = 8
  · simp [h8]
  · by_cases h4 : desired = 4
    · simp [h4]
    · by_cases h2 : desired = 2
      · simp [h2]
      · by_cases h1 : desired = 1
        · simp [h1]
        · simp [h8, h4, h2, h1, eq_comm]

theorem negotiateODR_eq (P : Platform) (gyro : gyroDev_t) (hdef : divisionDefined gyro) :
    negotiateODR P gyro
      = if gyro.gyroRateKHz ≠ 0 ∧ 8 / gyroSyncDenominator gyro = 8 then some (3, gyro)
        else if gyro.gyroRateKHz ≠ 0 ∧ 8 / gyroSyncDenominator gyro = 4 then some (4, gyro)
        else if gyro.gyroRateKHz ≠ 0 ∧ 8 / gyroSyncDenominator gyro = 2 then some (5, gyro)
        else if gyro.gyroRateKHz ≠ 0 ∧ 8 / gyroSyncDenominator gyro = 1 then some (6, gyro)
        else some (6, { gyro with gyroRateKHz := P.GYRO_RATE_1_kHz }) := by
  by_cases hr : gyro.gyroRateKHz = 0
  · simp [negotiateODR, hr]
  · have hd : gyroSyncDenominator gyro ≠ 0 := by
      rcases hdef with h | h
      · exact absurd h hr
      · exact h
    have hle : 8 / gyroSyncDenominator gyro ≤ 8 := Nat.div_le_self _ _
    have hmod : 8 / gyroSyncDenominator gyro % 256 = 8 / gyroSyncDenominator gyro :=
      Nat.mod_eq_of_lt (by omega)
    simp only [negotiateODR, hr, hd, hmod, odrSearch_table, ne_eq, not_false_eq_true,
      if_true, if_false, true_and]
    by_cases h8 : 8 / gyroSyncDenominator gyro = 8
    · simp [h8]
    · by_cases h4 : 8 / gyroSyncDenominator gyro = 4
      · simp [h4]
      · by_cases h2 : 8 / gyroSyncDenominator gyro = 2
        · simp [h2]
        · by_cases h1 : 8 / gyroSyncDenominator gyro = 1
          · simp [h1]
          · simp [h8, h4, h2, h1]

/-- The negotiation always ends with one of the four codes of the table. -/
theorem negotiateODR_some (P : Platform) (gyro : gyroDev_t) (hdef : divisionDefined gyro) :
    ∃ odr g2, negotiateODR P gyro = some (odr, g2) ∧
      (odr = 3 ∨ odr = 4 ∨ odr = 5 ∨ odr = 6) := by
  rw [negotiateODR_eq P gyro hdef]
  split_ifs
  · exact ⟨_, _, rfl, Or.inl rfl⟩
  · exact ⟨_, _, rfl, Or.inr (Or.inl rfl)⟩
  · exact ⟨_, _, rfl, Or.inr (Or.inr (Or.inl rfl))⟩
  · exact ⟨_, _, rfl, Or.inr (Or.inr (Or.inr rfl))⟩
  · exact ⟨_, _, rfl, Or.inr (Or.inr (Or.inr rfl))⟩

theorem aafBlock_in_range (lpf : Nat) (bus : busDevice_t) (h1 : 1 ≤ lpf) (h3 : lpf ≤ 3) :
    ∃ b, aafBlock lpf bus = some b ∧
      b.trace = bus.trace ++ (aafOps lpf).map (fun op => ⟨bus.divisor, op⟩) ∧
      b.divisor = bus.divisor ∧ b.regRx = bus.regRx := by
  have hl : lpf = 1 ∨ lpf = 2 ∨ lpf = 3 := by omega
  rcases hl with rfl | rfl | rfl <;>
  · cases h : aafBlock _ bus with
    | none => simp [aafBlock, icm42605_aaf] at h
    | some b =>
      simp only [aafBlock, icm42605_aaf] at h
      simp at h
      subst h
      refine ⟨_, rfl, ?_, rfl, rfl⟩
      simp [aafOps, aafWrites, icm42605_aaf, ICM42605_BANK_SELECT, ICM42605_GYRO_CONFIG_STATIC2,
        ICM42605_GYRO_CONFIG_STATIC3, ICM42605_GYRO_CONFIG_STATIC4, ICM42605_GYRO_CONFIG_STATIC5,
        ICM42605_GYRO_CONFIG_STATIC2_AAF_EN, ICM42605_GYRO_CONFIG_STATIC2_NF_DIS]
      decide

theorem aafBlock_spec (lpf : Nat) (bus : busDevice_t) :
    ∃ b, aafBlock lpf bus = some b ∧
      b.trace = bus.trace ++ (aafOps lpf).map (fun op => ⟨bus.divisor, op⟩) ∧
      b.divisor = bus.divisor ∧ b.regRx = bus.regRx := by
  by_cases h : 1 ≤ lpf ∧ lpf ≤ 3
  · exact aafBlock_in_range lpf bus h.1 h.2
  · have hg : ¬ (lpf ≠ 0 ∧ lpf < 4) := by omega
    refine ⟨bus, by simp only [aafBlock, hg, if_false], ?_, rfl, rfl⟩
    simp only [aafOps, h, if_false, List.map_nil, List.append_nil]

theorem dataReady_value (v : Nat) (hv : v < 256) :
    ((v &&& (255 - (1 <<< 4))) % 256 ||| (1 <<< 6 ||| 1 <<< 5)) % 256 % 256
      = (v &&& 0xEF) ||| 0x60 := by
  have h1 : v &&& 239 ≤ v := Nat.and_le_left
  have h2 : (v &&& 239) ||| 96 < 2 ^ 8 :=
    Nat.or_lt_two_pow (by omega) (by decide)
  have e1 : (255 - (1 <<< 4) : Nat) = 239 := by decide
  have e2 : (1 <<< 6 ||| 1 <<< 5 : Nat) = 96 := by decide
  rw [e1, e2, Nat.mod_eq_of_lt (show v &&& 239 < 256 by omega), Nat.mod_mod,
    Nat.mod_eq_of_lt (by omega)]

theorem dataReadyBlock_spec (P : Platform) (bus : busDevice_t) :
    (dataReadyBlock P bus).trace
      = bus.trace ++ (dataReadyOps P (bus.regRx 0 % 256)).map (fun op => ⟨bus.divisor, op⟩) ∧
    (dataReadyBlock P bus).divisor = bus.divisor := by
  cases hflag : P.USE_MPU_DATA_READY_SIGNAL with
  | false => simp [dataReadyBlock, dataReadyOps, hflag]
  | true =>
    have hv := dataReady_value (bus.regRx 0 % 256) (Nat.mod_lt _ (by decide))
    simp only [dataReadyBlock, dataReadyOps, hflag, if_true, ICM42605_RA_INT_SOURCE0,
      ICM42605_UI_DRDY_INT1_EN_ENABLED, ICM42605_RA_INT_CONFIG1, ICM42605_INT_ASYNC_RESET_BIT,
      ICM42605_INT_TPULSE_DURATION_8, ICM42605_INT_TDEASSERT_DISABLED,
      ICM42605_INT_TPULSE_DURATION_BIT, ICM42605_INT_TDEASSERT_DISABLE_BIT,
      trace_spiBusWriteRegister, trace_spiBusReadRegister, divisor_spiBusWriteRegister,
      divisor_spiBusReadRegister, regRx_spiBusWriteRegister, fst_spiBusReadRegister, hv]
    simp

theorem odr_field (odr : Nat) (h : odr < 16) :
    (((3 - 3) <<< 5) ||| (odr &&& 0x0F)) % 256 = odr := by
  interval_cases odr <;> rfl

/-- The bring-up, once the negotiation has settled on `odr`: the function
returns, the negotiated rate is the one of the negotiation, the clock is left
at the maximum operating speed, and the events issued after the pre-init are
the lowering of the clock followed by `bringUpRest` at the initialization
speed. -/
theorem icm42605GyroInit_spec (P : Platform) (gyro : gyroDev_t) (odr : Nat) (g2 : gyroDev_t)
    (hneg : negotiateODR P (P.mpuGyroInit gyro) = some (odr, g2)) (hodr : odr < 16) :
    ∃ g, icm42605GyroInit P gyro = some g ∧
      g.gyroRateKHz = g2.gyroRateKHz ∧
      g.bus.divisor = maxDivisor P ∧
      issued (P.mpuGyroInit gyro).bus g.bus
        = ⟨(P.mpuGyroInit gyro).bus.divisor, .setDivisor (initDivisor P)⟩
          :: (bringUpRest P odr gyro.hardware_lpf ((P.mpuGyroInit gyro).bus.regRx 0 % 256)).map
              (fun op => ⟨initDivisor P, op⟩) := by
  obtain ⟨b, hb, hbtr, hbdiv, hbrx⟩ := aafBlock_spec gyro.hardware_lpf
    (spiBusWriteRegister ICM42605_RA_INT_CONFIG0 ICM42605_UI_DRDY_INT_CLEAR_ON_SBR
      (spiBusWriteRegister ICM42605_RA_INT_CONFIG
        (ICM42605_INT1_MODE_PULSED ||| ICM42605_INT1_DRIVE_CIRCUIT_PP
          ||| ICM42605_INT1_POLARITY_ACTIVE_HIGH)
      (spiBusWriteRegister ICM42605_RA_GYRO_CONFIG1
        (0x12 ||| ((ICM42605_GYRO_FILTER_ORDER - 1) <<< 2))
      (spiBusWriteRegister ICM42605_RA_GYRO_ACCEL_CONFIG0
        (if gyro.hardware_lpf ≠ 0 then ICM42605_GYRO_UI_FILT_VALUE_LPF
          else ICM42605_GYRO_UI_FILT_VALUE)
      (delay 15
      (spiBusWriteRegister ICM42605_RA_ACCEL_CONFIG0
        (((3 - INV_FSR_16G) <<< 5) ||| (odr &&& 0x0F))
      (delay 15
      (spiBusWriteRegister ICM42605_RA_GYRO_CONFIG0
        (((3 - INV_FSR_2000DPS) <<< 5) ||| (odr &&& 0x0F))
      (delay 15
      (spiBusWriteRegister ICM42605_RA_PWR_MGMT0
        (ICM42605_PWR_MGMT0_TEMP_DISABLE_OFF ||| ICM42605_PWR_MGMT0_ACCEL_MODE_LN
          ||| ICM42605_PWR_MGMT0_GYRO_MODE_LN)
      (spiSetDivisor (P.spiCalculateDivider ICM42605_MAX_SPI_INIT_CLK_HZ)
        (P.mpuGyroInit gyro).bus)))))))))))
  obtain ⟨hdtr, hddiv⟩ := dataReadyBlock_spec P b
  have hfield := odr_field odr hodr
  have hlpf : (if gyro.hardware_lpf ≠ 0 then ICM42605_GYRO_UI_FILT_VALUE_LPF
      else ICM42605_GYRO_UI_FILT_VALUE) % 256
        = if gyro.hardware_lpf ≠ 0 then 0x77 else 0xEE := by
    split <;> rfl
  have hrun : icm42605GyroInit P gyro
      = some { g2 with
          bus := (spiSetDivisor (P.spiCalculateDivider ICM42605_MAX_SPI_CLK_HZ)
            (dataReadyBlock P b)) } := by
    simp only [icm42605GyroInit, hneg, hb]
  refine ⟨_, hrun, rfl, rfl, ?_⟩
  apply issued_of_trace_eq
  simp only [hdtr, hddiv, hbtr, hbrx, hbdiv, trace_spiSetDivisor, trace_spiBusWriteRegister, trace_delay,
    divisor_spiSetDivisor, divisor_spiBusWriteRegister, divisor_delay, regRx_spiSetDivisor,
    regRx_spiBusWriteRegister, regRx_delay, INV_FSR_16G, INV_FSR_2000DPS, hfield, hlpf,
    bringUpRest, bringUpWrites, initDivisor, maxDivisor, List.map_append, List.map_cons,
    List.map_nil, List.append_assoc, List.cons_append, List.nil_append]
  rfl

/-- Every bring-up on a state in which the division is defined runs to its
end; this collects what it does. -/
theorem icm42605GyroInit_run (P : Platform) (gyro : gyroDev_t)
    (hdef : divisionDefined (P.mpuGyroInit gyro)) :
    ∃ g odr g2, negotiateODR P (P.mpuGyroInit gyro) = some (odr, g2) ∧
      (odr = 3 ∨ odr = 4 ∨ odr = 5 ∨ odr = 6) ∧
      icm42605GyroInit P gyro = some g ∧
      g.gyroRateKHz = g2.gyroRateKHz ∧
      g.bus.divisor = maxDivisor P ∧
      issued (P.mpuGyroInit gyro).bus g.bus
        = ⟨(P.mpuGyroInit gyro).bus.divisor, .setDivisor (initDivisor P)⟩
          :: (bringUpRest P odr gyro.hardware_lpf ((P.mpuGyroInit gyro).bus.regRx 0 % 256)).map
              (fun op => ⟨initDivisor P, op⟩) ∧
      (issued (P.mpuGyroInit gyro).bus g.bus).map (fun e => e.op)
        = bringUpOps P odr gyro.hardware_lpf ((P.mpuGyroInit gyro).bus.regRx 0 % 256) := by
  obtain ⟨odr, g2, hneg, hodr⟩ := negotiateODR_some P (P.mpuGyroInit gyro) hdef
  obtain ⟨g, hg, hrate, hdiv, hev⟩ :=
    icm42605GyroInit_spec P gyro odr g2 hneg (by omega)
  refine ⟨g, odr, g2, hneg, hodr, hg, hrate, hdiv, hev, ?_⟩
  rw [hev]
  simp [bringUpOps, List.map_map, Function.comp_def]

theorem valuesWritten_append (reg : Nat) (xs ys : List BusOp) :
    valuesWritten reg (xs ++ ys) = valuesWritten reg xs ++ valuesWritten reg ys := by
  induction xs with
  | nil => rfl
  | cons x xs ih =>
    cases x with
    | writeRegister r v =>
      show (if r = reg then v :: valuesWritten reg (xs ++ ys) else valuesWritten reg (xs ++ ys))
        = (if r = reg then v :: valuesWritten reg xs else valuesWritten reg xs)
          ++ valuesWritten reg ys
      rw [ih]
      split <;> rfl
    | setDivisor d => exact ih
    | readRegister r v => exact ih
    | delay ms => exact ih
    | readRegisterBuffer r len ack => exact ih
    | transfer tx len ack => exact ih

theorem bankAfter_append (bank : Nat) (xs ys : List BusOp) :
    bankAfter bank (xs ++ ys) = bankAfter (bankAfter bank xs) ys := by
  induction xs generalizing bank with
  | nil => rfl
  | cons x xs ih =>
    cases x with
    | writeRegister r v =>
      show (if r = ICM42605_BANK_SELECT then bankAfter v (xs ++ ys) else bankAfter bank (xs ++ ys))
        = bankAfter (if r = ICM42605_BANK_SELECT then bankAfter v xs else bankAfter bank xs) ys
      rw [ih, ih]
      split <;> rfl
    | setDivisor d => exact ih bank
    | readRegister r v => exact ih bank
    | delay ms => exact ih bank
    | readRegisterBuffer r len ack => exact ih bank
    | transfer tx len ack => exact ih bank

theorem bankAfter_untouched (bank : Nat) (xs : List BusOp)
    (h : ∀ op, op ∈ xs → op.touchesAaf = false) : bankAfter bank xs = bank := by
  induction xs generalizing bank with
  | nil => rfl
  | cons x xs ih =>
    have hx := h x (List.mem_cons_self _ _)
    have hxs : ∀ op, op ∈ xs → op.touchesAaf = false :=
      fun op hop => h op (List.mem_cons_of_mem _ hop)
    cases x with
    | writeRegister reg data =>
      have hreg : reg ≠ ICM42605_BANK_SELECT := by
        intro hreg
        subst hreg
        simp [BusOp.touchesAaf, BusOp.writesTo, ICM42605_BANK_SELECT] at hx
      simp only [bankAfter, hreg, if_false]
      exact ih bank hxs
    | setDivisor d => exact ih bank hxs
    | readRegister reg data => exact ih bank hxs
    | delay ms => exact ih bank hxs
    | readRegisterBuffer reg len ack => exact ih bank hxs
    | transfer tx len ack => exact ih bank hxs

/-- The entry the anti-alias filter block takes for each selector. -/
theorem aafOps_cases (lpf : Nat) :
    (¬ (1 ≤ lpf ∧ lpf ≤ 3) ∧ aafOps lpf = []) ∨
    (lpf = 1 ∧ aafOps lpf = aafWrites ⟨3968, 31, 3⟩) ∨
    (lpf = 2 ∧ aafOps lpf = aafWrites ⟨680, 26, 6⟩) ∨
    (lpf = 3 ∧ aafOps lpf = aafWrites ⟨400, 20, 6⟩) := by
  by_cases h : 1 ≤ lpf ∧ lpf ≤ 3
  · have hl : lpf = 1 ∨ lpf = 2 ∨ lpf = 3 := by omega
    rcases hl with rfl | rfl | rfl
    · exact Or.inr (Or.inl ⟨rfl, rfl⟩)
    · exact Or.inr (Or.inr (Or.inl ⟨rfl, rfl⟩))
    · exact Or.inr (Or.inr (Or.inr ⟨rfl, rfl⟩))
  · exact Or.inl ⟨h, by simp only [aafOps, h, if_false]⟩

theorem touchesAaf_bringUpWrites (odr lpf : Nat) :
    ∀ op, op ∈ bringUpWrites odr lpf → op.touchesAaf = false := by
  intro op hop
  simp only [bringUpWrites, List.mem_cons, List.mem_singleton, List.not_mem_nil, or_false] at hop
  rcases hop with rfl | rfl | rfl | rfl | rfl | rfl | rfl | rfl | rfl | rfl <;> rfl

theorem touchesAaf_dataReadyOps (P : Platform) (v : Nat) :
    ∀ op, op ∈ dataReadyOps P v → op.touchesAaf = false := by
  intro op hop
  cases hflag : P.USE_MPU_DATA_READY_SIGNAL with
  | false => simp [dataReadyOps, hflag] at hop
  | true =>
    simp only [dataReadyOps, hflag, if_true, List.mem_cons, List.mem_singleton,
      List.not_mem_nil, or_false] at hop
    rcases hop with rfl | rfl | rfl <;> rfl

theorem valuesWritten_bringUpOps (P : Platform) (odr lpf v : Nat) :
    valuesWritten 0x4F (bringUpOps P odr lpf v) = [odr] ∧
    valuesWritten 0x50 (bringUpOps P odr lpf v) = [odr] := by
  have haaf : valuesWritten 0x4F (aafOps lpf) = [] ∧ valuesWritten 0x50 (aafOps lpf) = [] := by
    rcases aafOps_cases lpf with ⟨_, h⟩ | ⟨_, h⟩ | ⟨_, h⟩ | ⟨_, h⟩ <;> rw [h] <;>
      exact ⟨rfl, rfl⟩
  have hdr : valuesWritten 0x4F (dataReadyOps P v) = [] ∧
      valuesWritten 0x50 (dataReadyOps P v) = [] := by
    cases hflag : P.USE_MPU_DATA_READY_SIGNAL with
    | false => simp only [dataReadyOps, hflag]; exact ⟨rfl, rfl⟩
    | true => simp only [dataReadyOps, hflag, if_true]; exact ⟨rfl, rfl⟩
  have hw : valuesWritten 0x4F (bringUpWrites odr lpf) = [odr] ∧
      valuesWritten 0x50 (bringUpWrites odr lpf) = [odr] := by
    simp [bringUpWrites, valuesWritten]
  constructor
  · show valuesWritten 0x4F (bringUpRest P odr lpf v) = [odr]
    unfold bringUpRest
    rw [valuesWritten_append, valuesWritten_append, valuesWritten_append, hw.1, haaf.1, hdr.1]
    rfl
  · show valuesWritten 0x50 (bringUpRest P odr lpf v) = [odr]
    unfold bringUpRest
    rw [valuesWritten_append, valuesWritten_append, valuesWritten_append, hw.2, haaf.2, hdr.2]
    rfl

theorem isCoefficientWrite_of_untouched (op : BusOp) (h : op.touchesAaf = false) :
    op.isCoefficientWrite = false := by
  simp only [BusOp.touchesAaf, Bool.or_eq_false_iff] at h
  simp only [BusOp.isCoefficientWrite, Bool.or_eq_false_iff]
  exact ⟨⟨h.1.1.2, h.1.2⟩, h.2⟩

theorem filter_coefficient_untouched (xs : List BusOp)
    (h : ∀ op, op ∈ xs → op.touchesAaf = false) :
    xs.filter (fun op => op.isCoefficientWrite) = [] := by
  rw [List.filter_eq_nil_iff]
  intro op hop
  rw [isCoefficientWrite_of_untouched op (h op hop)]
  decide

theorem bringUpOps_split (P : Platform) (odr lpf v : Nat) :
    bringUpOps P odr lpf v
      = (BusOp.setDivisor (initDivisor P) :: bringUpWrites odr lpf) ++ aafOps lpf
        ++ (dataReadyOps P v ++ [BusOp.setDivisor (maxDivisor P)]) := by
  simp [bringUpOps, bringUpRest]

theorem touchesAaf_bringUpPrefix (P : Platform) (odr lpf : Nat) :
    ∀ op, op ∈ BusOp.setDivisor (initDivisor P) :: bringUpWrites odr lpf →
      op.touchesAaf = false := by
  intro op hop
  rcases List.mem_cons.mp hop with rfl | hop
  · rfl
  · exact touchesAaf_bringUpWrites _ _ op hop

theorem touchesAaf_bringUpSuffix (P : Platform) (v : Nat) :
    ∀ op, op ∈ dataReadyOps P v ++ [BusOp.setDivisor (maxDivisor P)] →
      op.touchesAaf = false := by
  intro op hop
  rcases List.mem_append.mp hop with hop | hop
  · exact touchesAaf_dataReadyOps _ _ op hop
  · rw [List.mem_singleton] at hop
    subst hop
    rfl

/-! ## Bring-up: the claims -/

/-- C1: on every gyro state (as the pre-init hands it over) in which the
division is defined, with `desired = 8 / gyroSyncDenominator`: if `gyroRateKHz`
is nonzero and `desired` is 8, 4, 2 or 1, the one value written to each of the
gyro (0x4F) and accel (0x50) config0 registers carries the code 3, 4, 5 or 6
in its low four bits and `gyroRateKHz` is left alone; in every other case the
code is 6 and `gyroRateKHz` becomes `GYRO_RATE_1_kHz`. -/
theorem C1_odr_negotiation (P : Platform) (gyro : gyroDev_t)
    (hdef : divisionDefined (P.mpuGyroInit gyro)) :
    ∃ g, icm42605GyroInit P gyro = some g ∧
      (∀ khz code, (khz, code) ∈ [(8, 3), (4, 4), (2, 5), (1, 6)] →
        (P.mpuGyroInit gyro).gyroRateKHz ≠ 0 →
        8 / gyroSyncDenominator (P.mpuGyroInit gyro) = khz →
          lowNibblesWritten 0x4F (issuedOps (P.mpuGyroInit gyro).bus g.bus) = [code] ∧
          lowNibblesWritten 0x50 (issuedOps (P.mpuGyroInit gyro).bus g.bus) = [code] ∧
          g.gyroRateKHz = (P.mpuGyroInit gyro).gyroRateKHz) ∧
      (((P.mpuGyroInit gyro).gyroRateKHz = 0 ∨
          8 / gyroSyncDenominator (P.mpuGyroInit gyro) ∉ [8, 4, 2, 1]) →
          lowNibblesWritten 0x4F (issuedOps (P.mpuGyroInit gyro).bus g.bus) = [6] ∧
          lowNibblesWritten 0x50 (issuedOps (P.mpuGyroInit gyro).bus g.bus) = [6] ∧
          g.gyroRateKHz = P.GYRO_RATE_1_kHz) := by
  obtain ⟨g, odr, g2, hneg, _, hg, hrate, _, _, hops⟩ := icm42605GyroInit_run P gyro hdef
  have hw := valuesWritten_bringUpOps P odr gyro.hardware_lpf
    ((P.mpuGyroInit gyro).bus.regRx 0 % 256)
  rw [negotiateODR_eq P _ hdef] at hneg
  have hnib : ∀ code, odr = code → code < 16 →
      lowNibblesWritten 0x4F (issuedOps (P.mpuGyroInit gyro).bus g.bus) = [code] ∧
      lowNibblesWritten 0x50 (issuedOps (P.mpuGyroInit gyro).bus g.bus) = [code] := by
    intro code hc hlt
    subst hc
    have hand : odr &&& 0x0F = odr := by
      interval_cases odr <;> rfl
    simp only [lowNibblesWritten, issuedOps, hops, hw.1, hw.2, List.map_cons, List.map_nil, hand]
    exact ⟨trivial, trivial⟩
  refine ⟨g, hg, ?_, ?_⟩
  · intro khz code hmem hr hk
    simp only [List.mem_cons, Prod.mk.injEq, List.mem_singleton, List.not_mem_nil,
      or_false] at hmem
    rcases hmem with ⟨rfl, rfl⟩ | ⟨rfl, rfl⟩ | ⟨rfl, rfl⟩ | ⟨rfl, rfl⟩
    · simp [hr, hk] at hneg
      obtain ⟨h1, h2⟩ := hneg
      exact ⟨(hnib 3 h1.symm (by omega)).1, (hnib 3 h1.symm (by omega)).2, by rw [hrate, ← h2]⟩
    · simp [hr, hk] at hneg
      obtain ⟨h1, h2⟩ := hneg
      exact ⟨(hnib 4 h1.symm (by omega)).1, (hnib 4 h1.symm (by omega)).2, by rw [hrate, ← h2]⟩
    · simp [hr, hk] at hneg
      obtain ⟨h1, h2⟩ := hneg
      exact ⟨(hnib 5 h1.symm (by omega)).1, (hnib 5 h1.symm (by omega)).2, by rw [hrate, ← h2]⟩
    · simp [hr, hk] at hneg
      obtain ⟨h1, h2⟩ := hneg
      exact ⟨(hnib 6 h1.symm (by omega)).1, (hnib 6 h1.symm (by omega)).2, by rw [hrate, ← h2]⟩
  · intro hother
    have hfall : some (6, { P.mpuGyroInit gyro with gyroRateKHz := P.GYRO_RATE_1_kHz })
        = some (odr, g2) := by
      rcases hother with h0 | hno
      · simpa [h0] using hneg
      · simp only [List.mem_cons, List.mem_singleton, List.not_mem_nil, or_false, not_or] at hno
        simpa [hno.1, hno.2.1, hno.2.2.1, hno.2.2.2] using hneg
    simp only [Option.some.injEq, Prod.mk.injEq] at hfall
    obtain ⟨h1, h2⟩ := hfall
    exact ⟨(hnib 6 h1.symm (by omega)).1, (hnib 6 h1.symm (by omega)).2, by rw [hrate, ← h2]⟩

/-- C1, at `mpuDividerDrops = 1` (desired 4, code 4, rate kept) and at
`mpuDividerDrops = 8` (desired 0, code 6, rate forced). -/
theorem C1_odr_negotiation_witness :
    (∃ g, icm42605GyroInit (examplePlatform false) (bringUpGyro 0 5 1 0) = some g ∧
      lowNibblesWritten 0x4F (issuedOps (bringUpGyro 0 5 1 0).bus g.bus) = [4] ∧
      lowNibblesWritten 0x50 (issuedOps (bringUpGyro 0 5 1 0).bus g.bus) = [4] ∧
      g.gyroRateKHz = 5) ∧
    (∃ g, icm42605GyroInit (examplePlatform false) (bringUpGyro 0 5 8 0) = some g ∧
      lowNibblesWritten 0x4F (issuedOps (bringUpGyro 0 5 8 0).bus g.bus) = [6] ∧
      lowNibblesWritten 0x50 (issuedOps (bringUpGyro 0 5 8 0).bus g.bus) = [6] ∧
      g.gyroRateKHz = 0) :=
  ⟨(C1_odr_negotiation (examplePlatform false) (bringUpGyro 0 5 1 0)
      (Or.inr (by decide))).imp
      (fun _ h => ⟨h.1, h.2.1 4 4 (by decide) (by decide) (by decide)⟩),
   (C1_odr_negotiation (examplePlatform false) (bringUpGyro 0 5 8 0)
      (Or.inr (by decide))).imp
      (fun _ h => ⟨h.1, h.2.2 (Or.inr (by decide))⟩)⟩

/-- C8 as stated fails: with a nonzero rate and `mpuDividerDrops = 255` the
bring-up divides by zero at line 233, after its third event; it does not run
to its end, so there is no return with the clock at the maximum operating
speed. -/
theorem C8_counterexample :
    ¬ ∃ g, icm42605GyroInit (examplePlatform true) (bringUpGyro 0 2 255 0) = some g ∧
      g.bus.divisor = maxDivisor (examplePlatform true) := by
  have h : icm42605GyroInit (examplePlatform true) (bringUpGyro 0 2 255 0) = none := rfl
  rintro ⟨g, hg, _⟩
  rw [h] at hg
  cases hg

/-- C8, amended: on every gyro state in which the division is defined the
bring-up runs to its end and the operations issued after the pre-init are, in
this order: clock to the initialization speed; 0x4E <- 0x0F; delay 15; 0x4F <- odr;
delay 15; 0x50 <- odr (the negotiated code, one of 3, 4, 5, 6, so bits 7:5
are zero); delay 15; 0x52 <- 0x77 for a nonzero `hardware_lpf`, else 0xEE;
0x51 <- 0x1A; 0x14 <- 0x03; 0x63 <- 0x00; the anti-alias filter block; the
data-ready block; clock to the maximum operating speed. Every event after the
first, hence every register write, is issued at the initialization speed, and
the bus is left at the maximum operating speed. -/
theorem C8_bring_up_order (P : Platform) (gyro : gyroDev_t)
    (hdef : divisionDefined (P.mpuGyroInit gyro)) :
    ∃ g odr, icm42605GyroInit P gyro = some g ∧
      (negotiateODR P (P.mpuGyroInit gyro)).map (fun r => r.1) = some odr ∧
      (odr = 3 ∨ odr = 4 ∨ odr = 5 ∨ odr = 6) ∧
      issuedOps (P.mpuGyroInit gyro).bus g.bus
        = [.setDivisor (P.spiCalculateDivider 1000000),
           .writeRegister 0x4E 0x0F,
           .delay 15,
           .writeRegister 0x4F odr,
           .delay 15,
           .writeRegister 0x50 odr,
           .delay 15,
           .writeRegister 0x52 (if gyro.hardware_lpf ≠ 0 then 0x77 else 0xEE),
           .writeRegister 0x51 0x1A,
           .writeRegister 0x14 0x03,
           .writeRegister 0x63 0x00]
          ++ aafOps gyro.hardware_lpf
          ++ dataReadyOps P ((P.mpuGyroInit gyro).bus.regRx 0 % 256)
          ++ [.setDivisor (P.spiCalculateDivider 24000000)] ∧
      (∀ e, e ∈ (issued (P.mpuGyroInit gyro).bus g.bus).tail →
        e.clk = P.spiCalculateDivider 1000000) ∧
      (∀ e, e ∈ issued (P.mpuGyroInit gyro).bus g.bus → e.op.isWrite = true →
        e.clk = P.spiCalculateDivider 1000000) ∧
      g.bus.divisor = P.spiCalculateDivider 24000000 := by
  obtain ⟨g, odr, g2, hneg, hodr, hg, _, hdiv, hev, hops⟩ := icm42605GyroInit_run P gyro hdef
  have htail : ∀ e, e ∈ (issued (P.mpuGyroInit gyro).bus g.bus).tail →
      e.clk = P.spiCalculateDivider 1000000 := by
    intro e he
    rw [hev, List.tail_cons, List.mem_map] at he
    obtain ⟨op, _, rfl⟩ := he
    rfl
  refine ⟨g, odr, hg, by rw [hneg]; rfl, hodr, ?_, htail, ?_, hdiv⟩
  · rw [issuedOps, hops]
    rfl
  · intro e he hw
    rw [hev] at he
    rcases List.mem_cons.mp he with rfl | he
    · simp [BusOp.isWrite] at hw
    · apply htail
      rw [hev, List.tail_cons]
      exact he

/-- C8 (amended), on a gyro with `hardware_lpf = 2`, rate 1 and `mpuDividerDrops = 0` on
a platform with the data-ready block. -/
theorem C8_bring_up_order_witness :
    ∃ g odr, icm42605GyroInit (examplePlatform true) (bringUpGyro 2 1 0 0xFF) = some g ∧
      (negotiateODR (examplePlatform true) (bringUpGyro 2 1 0 0xFF)).map (fun r => r.1)
        = some odr ∧
      (odr = 3 ∨ odr = 4 ∨ odr = 5 ∨ odr = 6) ∧
      issuedOps (bringUpGyro 2 1 0 0xFF).bus g.bus
        = [.setDivisor 48,
           .writeRegister 0x4E 0x0F,
           .delay 15,
           .writeRegister 0x4F odr,
           .delay 15,
           .writeRegister 0x50 odr,
           .delay 15,
           .writeRegister 0x52 0x77,
           .writeRegister 0x51 0x1A,
           .writeRegister 0x14 0x03,
           .writeRegister 0x63 0x00]
          ++ aafOps 2
          ++ dataReadyOps (examplePlatform true) 0xFF
          ++ [.setDivisor 2] ∧
      (∀ e, e ∈ (issued (bringUpGyro 2 1 0 0xFF).bus g.bus).tail → e.clk = 48) ∧
      (∀ e, e ∈ issued (bringUpGyro 2 1 0 0xFF).bus g.bus → e.op.isWrite = true →
        e.clk = 48) ∧
      g.bus.divisor = 2 :=
  C8_bring_up_order (examplePlatform true) (bringUpGyro 2 1 0 0xFF) (Or.inr (by decide))

/-- C6 as stated fails: with the selector 1, a nonzero rate and
`mpuDividerDrops = 255` the bring-up divides by zero at line 233 before it
reaches the filter block, so no run contains the six writes. -/
theorem C6_counterexample :
    (bringUpGyro 1 1 255 0).hardware_lpf = 1 ∧
    icm42605_aaf.get? (1 - 1) = some ⟨3968, 31, 3⟩ ∧
    ¬ ∃ g, icm42605GyroInit (examplePlatform false) (bringUpGyro 1 1 255 0) = some g ∧
      ∃ pre post, issuedOps (bringUpGyro 1 1 255 0).bus g.bus
        = pre ++ aafWrites ⟨3968, 31, 3⟩ ++ post := by
  have h : icm42605GyroInit (examplePlatform false) (bringUpGyro 1 1 255 0) = none := rfl
  refine ⟨rfl, rfl, ?_⟩
  rintro ⟨g, hg, _⟩
  rw [h] at hg
  cases hg

/-- C6, amended: on every gyro state in which the division is defined, if
`hardware_lpf` is 0 or above 3 the bring-up writes neither the bank-select
register 0x76 nor 0x0B..0x0E; if it is 1, 2 or 3, with `e` the table entry
`hardware_lpf - 1`, the operations are `pre ++ aafWrites e ++ post` where
neither `pre` nor `post` writes any of these registers, so the six writes
occur once, contiguously and in order, and the bank selected afterwards is 0
whatever it was before. -/
theorem C6_aaf_block (P : Platform) (gyro : gyroDev_t)
    (hdef : divisionDefined (P.mpuGyroInit gyro)) :
    ∃ g, icm42605GyroInit P gyro = some g ∧
      ((gyro.hardware_lpf = 0 ∨ 3 < gyro.hardware_lpf) →
        ∀ op, op ∈ issuedOps (P.mpuGyroInit gyro).bus g.bus → op.touchesAaf = false) ∧
      (∀ e, 1 ≤ gyro.hardware_lpf → gyro.hardware_lpf ≤ 3 →
        icm42605_aaf.get? (gyro.hardware_lpf - 1) = some e →
        ∃ pre post, issuedOps (P.mpuGyroInit gyro).bus g.bus = pre ++ aafWrites e ++ post ∧
          (∀ op, op ∈ pre → op.touchesAaf = false) ∧
          (∀ op, op ∈ post → op.touchesAaf = false) ∧
          ∀ bank, bankAfter bank (issuedOps (P.mpuGyroInit gyro).bus g.bus) = 0) := by
  obtain ⟨g, odr, g2, _, _, hg, _, _, _, hops⟩ := icm42605GyroInit_run P gyro hdef
  have hpre := touchesAaf_bringUpPrefix P odr gyro.hardware_lpf
  have hpost := touchesAaf_bringUpSuffix P ((P.mpuGyroInit gyro).bus.regRx 0 % 256)
  have hshape : issuedOps (P.mpuGyroInit gyro).bus g.bus
      = (BusOp.setDivisor (initDivisor P) :: bringUpWrites odr gyro.hardware_lpf)
        ++ aafOps gyro.hardware_lpf
        ++ (dataReadyOps P ((P.mpuGyroInit gyro).bus.regRx 0 % 256)
          ++ [BusOp.setDivisor (maxDivisor P)]) := by
    rw [issuedOps, hops, bringUpOps_split]
  refine ⟨g, hg, ?_, ?_⟩
  · intro hout op hop
    have hnone : aafOps gyro.hardware_lpf = [] := by
      have : ¬ (1 ≤ gyro.hardware_lpf ∧ gyro.hardware_lpf ≤ 3) := by omega
      simp only [aafOps, this, if_false]
    rw [hshape, hnone, List.append_nil] at hop
    rcases List.mem_append.mp hop with hop | hop
    · exact hpre op hop
    · exact hpost op hop
  · intro e h1 h3 he
    have haaf : aafOps gyro.hardware_lpf = aafWrites e := by
      have : 1 ≤ gyro.hardware_lpf ∧ gyro.hardware_lpf ≤ 3 := ⟨h1, h3⟩
      simp only [aafOps, this, and_self, if_true, he]
    refine ⟨_, _, by rw [hshape, haaf], hpre, hpost, ?_⟩
    intro bank
    rw [hshape, haaf,
      bankAfter_append bank
        ((BusOp.setDivisor (initDivisor P) :: bringUpWrites odr gyro.hardware_lpf) ++ aafWrites e),
      bankAfter_untouched _ _ hpost,
      bankAfter_append bank (BusOp.setDivisor (initDivisor P) :: bringUpWrites odr gyro.hardware_lpf),
      bankAfter_untouched _ _ hpre]
    rfl

/-- C6 (amended), on a gyro with `hardware_lpf = 0` and on one with `hardware_lpf = 3`,
whose table entry is `(400, 20, 6)`. -/
theorem C6_aaf_block_witness :
    (∃ g, icm42605GyroInit (examplePlatform true) (bringUpGyro 0 1 0 0) = some g ∧
      ∀ op, op ∈ issuedOps (bringUpGyro 0 1 0 0).bus g.bus → op.touchesAaf = false) ∧
    (∃ g, icm42605GyroInit (examplePlatform true) (bringUpGyro 3 1 0 0) = some g ∧
      ∃ pre post, issuedOps (bringUpGyro 3 1 0 0).bus g.bus
          = pre ++ aafWrites ⟨400, 20, 6⟩ ++ post ∧
        (∀ op, op ∈ pre → op.touchesAaf = false) ∧
        (∀ op, op ∈ post → op.touchesAaf = false) ∧
        ∀ bank, bankAfter bank (issuedOps (bringUpGyro 3 1 0 0).bus g.bus) = 0) :=
  ⟨(C6_aaf_block (examplePlatform true) (bringUpGyro 0 1 0 0) (Or.inr (by decide))).imp
      (fun _ h => ⟨h.1, h.2.1 (Or.inl rfl)⟩),
   (C6_aaf_block (examplePlatform true) (bringUpGyro 3 1 0 0) (Or.inr (by decide))).imp
      (fun _ h => ⟨h.1, h.2.2 ⟨400, 20, 6⟩ (by decide) (by decide) rfl⟩)⟩

/-- C7 as stated fails: table entry 1 is `(680, 26, 6)`, but for the selector 1
the coefficient writes of the bring-up are those of the default entry
`(3968, 31, 3)`, which differ from those of entry 1. -/
theorem C7_counterexample :
    icm42605_aaf.get? 1 = some ⟨680, 26, 6⟩ ∧
    (icm42605GyroInit (examplePlatform false) (bringUpGyro 1 1 0 0)).map
        (fun g => (issuedOps (bringUpGyro 1 1 0 0).bus g.bus).filter
          (fun op => op.isCoefficientWrite))
      = some (aafCoefficientWrites ⟨3968, 31, 3⟩) ∧
    aafCoefficientWrites ⟨3968, 31, 3⟩ ≠ aafCoefficientWrites ⟨680, 26, 6⟩ := by
  decide

/-- C7, amended: the profile table is indexed by the selector minus one. On
every gyro state in which the division is defined the bring-up runs to its
end, and
* if the selector `s` is 1, 2 or 3, with `e` the table entry `s - 1`
  (`(3968, 31, 3)` for 1, `(680, 26, 6)` for 2, `(400, 20, 6)` for 3), the
  operations are `pre`, then the selection of bank 1 and the filter enable,
  then the three coefficient writes of `e`, then the selection of bank 0, then
  `post`; neither `pre` nor `post` writes the bank-select register or
  0x0B..0x0E, so bank 1 is the bank selected when the coefficient writes
  start, whatever the bank was before, and they are the only writes to
  0x0C..0x0E;
* if the selector is 0, no entry is programmed: there is no write to
  0x0C..0x0E, nor to the bank-select register or 0x0B. -/
theorem C7_aaf_entry_is_selector_minus_one (P : Platform) (gyro : gyroDev_t)
    (hdef : divisionDefined (P.mpuGyroInit gyro)) :
    ∃ g, icm42605GyroInit P gyro = some g ∧
      (∀ s, gyro.hardware_lpf = s → (s = 1 ∨ s = 2 ∨ s = 3) →
        ∃ e pre post, icm42605_aaf.get? (s - 1) = some e ∧
          (s = 1 → e = ⟨3968, 31, 3⟩) ∧
          (s = 2 → e = ⟨680, 26, 6⟩) ∧
          (s = 3 → e = ⟨400, 20, 6⟩) ∧
          issuedOps (P.mpuGyroInit gyro).bus g.bus
            = pre ++ [.writeRegister 0x76 1, .writeRegister 0x0B 0xA9]
              ++ aafCoefficientWrites e ++ [.writeRegister 0x76 0] ++ post ∧
          (∀ op, op ∈ pre → op.touchesAaf = false) ∧
          (∀ op, op ∈ post → op.touchesAaf = false) ∧
          (∀ bank, bankAfter bank
            (pre ++ [.writeRegister 0x76 1, .writeRegister 0x0B 0xA9]) = 1) ∧
          (issuedOps (P.mpuGyroInit gyro).bus g.bus).filter (fun op => op.isCoefficientWrite)
            = aafCoefficientWrites e) ∧
      (gyro.hardware_lpf = 0 →
        (issuedOps (P.mpuGyroInit gyro).bus g.bus).filter (fun op => op.isCoefficientWrite)
          = [] ∧
        ∀ op, op ∈ issuedOps (P.mpuGyroInit gyro).bus g.bus → op.touchesAaf = false) := by
  obtain ⟨g, odr, g2, _, _, hg, _, _, _, hops⟩ := icm42605GyroInit_run P gyro hdef
  have hpre := touchesAaf_bringUpPrefix P odr gyro.hardware_lpf
  have hpost := touchesAaf_bringUpSuffix P ((P.mpuGyroInit gyro).bus.regRx 0 % 256)
  have hshape : issuedOps (P.mpuGyroInit gyro).bus g.bus
      = (BusOp.setDivisor (initDivisor P) :: bringUpWrites odr gyro.hardware_lpf)
        ++ aafOps gyro.hardware_lpf
        ++ (dataReadyOps P ((P.mpuGyroInit gyro).bus.regRx 0 % 256)
          ++ [BusOp.setDivisor (maxDivisor P)]) := by
    rw [issuedOps, hops, bringUpOps_split]
  have hsel : ∀ e, aafOps gyro.hardware_lpf = aafWrites e →
      (aafWrites e).filter (fun op => op.isCoefficientWrite) = aafCoefficientWrites e →
      ∃ pre post,
        issuedOps (P.mpuGyroInit gyro).bus g.bus
          = pre ++ [.writeRegister 0x76 1, .writeRegister 0x0B 0xA9]
            ++ aafCoefficientWrites e ++ [.writeRegister 0x76 0] ++ post ∧
        (∀ op, op ∈ pre → op.touchesAaf = false) ∧
        (∀ op, op ∈ post → op.touchesAaf = false) ∧
        (∀ bank, bankAfter bank
          (pre ++ [.writeRegister 0x76 1, .writeRegister 0x0B 0xA9]) = 1) ∧
        (issuedOps (P.mpuGyroInit gyro).bus g.bus).filter (fun op => op.isCoefficientWrite)
          = aafCoefficientWrites e := by
    intro e he hf
    have hsplit : aafWrites e
        = [.writeRegister 0x76 1, .writeRegister 0x0B 0xA9]
          ++ aafCoefficientWrites e ++ [.writeRegister 0x76 0] := rfl
    refine ⟨_, _, ?_, hpre, hpost, ?_, ?_⟩
    · rw [hshape, he, hsplit]
      simp only [List.append_assoc]
    · intro bank
      rw [bankAfter_append, bankAfter_untouched _ _ hpre]
      rfl
    · rw [hshape, he, List.filter_append, List.filter_append,
        filter_coefficient_untouched _ hpre, filter_coefficient_untouched _ hpost, hf]
      rfl
  refine ⟨g, hg, ?_, ?_⟩
  · intro s hs hrange
    rcases hrange with rfl | rfl | rfl
    · obtain ⟨pre, post, h⟩ := hsel ⟨3968, 31, 3⟩ (by rw [hs]; rfl) (by decide)
      exact ⟨_, pre, post, rfl, fun _ => rfl, fun h => absurd h (by decide),
        fun h => absurd h (by decide), h⟩
    · obtain ⟨pre, post, h⟩ := hsel ⟨680, 26, 6⟩ (by rw [hs]; rfl) (by decide)
      exact ⟨_, pre, post, rfl, fun h => absurd h (by decide), fun _ => rfl,
        fun h => absurd h (by decide), h⟩
    · obtain ⟨pre, post, h⟩ := hsel ⟨400, 20, 6⟩ (by rw [hs]; rfl) (by decide)
      exact ⟨_, pre, post, rfl, fun h => absurd h (by decide),
        fun h => absurd h (by decide), fun _ => rfl, h⟩
  · intro h0
    have hnone : aafOps gyro.hardware_lpf = [] := by
      rw [h0]
      rfl
    have hall : ∀ op, op ∈ issuedOps (P.mpuGyroInit gyro).bus g.bus →
        op.touchesAaf = false := by
      intro op hop
      rw [hshape, hnone, List.append_nil] at hop
      rcases List.mem_append.mp hop with hop | hop
      · exact hpre op hop
      · exact hpost op hop
    exact ⟨filter_coefficient_untouched _ hall, hall⟩

/-- C7 (amended), on a gyro with the selector 1, whose entry is
`(3968, 31, 3)`, and on one with the selector 0. -/
theorem C7_aaf_entry_is_selector_minus_one_witness :
    (∃ g, icm42605GyroInit (examplePlatform true) (bringUpGyro 1 1 0 0) = some g ∧
      ∃ e pre post, icm42605_aaf.get? (1 - 1) = some e ∧
        (1 = 1 → e = ⟨3968, 31, 3⟩) ∧
        (1 = 2 → e = ⟨680, 26, 6⟩) ∧
        (1 = 3 → e = ⟨400, 20, 6⟩) ∧
        issuedOps (bringUpGyro 1 1 0 0).bus g.bus
          = pre ++ [.writeRegister 0x76 1, .writeRegister 0x0B 0xA9]
            ++ aafCoefficientWrites e ++ [.writeRegister 0x76 0] ++ post ∧
        (∀ op, op ∈ pre → op.touchesAaf = false) ∧
        (∀ op, op ∈ post → op.touchesAaf = false) ∧
        (∀ bank, bankAfter bank
          (pre ++ [.writeRegister 0x76 1, .writeRegister 0x0B 0xA9]) = 1) ∧
        (issuedOps (bringUpGyro 1 1 0 0).bus g.bus).filter (fun op => op.isCoefficientWrite)
          = aafCoefficientWrites e) ∧
    (∃ g, icm42605GyroInit (examplePlatform true) (bringUpGyro 0 1 0 0) = some g ∧
      (issuedOps (bringUpGyro 0 1 0 0).bus g.bus).filter (fun op => op.isCoefficientWrite)
        = [] ∧
      ∀ op, op ∈ issuedOps (bringUpGyro 0 1 0 0).bus g.bus → op.touchesAaf = false) :=
  ⟨(C7_aaf_entry_is_selector_minus_one (examplePlatform true) (bringUpGyro 1 1 0 0)
      (Or.inr (by decide))).imp
      (fun _ h => ⟨h.1, h.2.1 1 rfl (Or.inl rfl)⟩),
   (C7_aaf_entry_is_selector_minus_one (examplePlatform true) (bringUpGyro 0 1 0 0)
      (Or.inr (by decide))).imp
      (fun _ h => ⟨h.1, h.2.2 rfl⟩)⟩

/-- C10 as stated fails: with a nonzero rate and `mpuDividerDrops = 255` the
8-bit denominator is 0, and the bring-up runs into the division by zero. -/
theorem C10_counterexample :
    (bringUpGyro 0 1 255 0).gyroRateKHz ≠ 0 ∧
    (bringUpGyro 0 1 255 0).mpuDividerDrops ≤ 255 ∧
    gyroSyncDenominator (bringUpGyro 0 1 255 0) = 0 ∧
    (icm42605GyroInit (examplePlatform false) (bringUpGyro 0 1 255 0)).isNone = true := by
  decide

/-- C10, amended: for every gyro state (with a nonzero `gyroRateKHz` or not)
whose `mpuDividerDrops` is in 0..254 the 8-bit denominator is
`mpuDividerDrops + 1`, hence nonzero, and the negotiation returns. -/
theorem C10_denominator_nonzero_up_to_254 (P : Platform) (gyro : gyroDev_t)
    (hdrops : gyro.mpuDividerDrops ≤ 254) :
    gyroSyncDenominator gyro = gyro.mpuDividerDrops + 1 ∧
    gyroSyncDenominator gyro ≠ 0 ∧
    (negotiateODR P gyro).isSome = true := by
  have hden : gyroSyncDenominator gyro = gyro.mpuDividerDrops + 1 := by
    unfold gyroSyncDenominator
    omega
  have hne : gyroSyncDenominator gyro ≠ 0 := by omega
  obtain ⟨odr, g2, h, _⟩ := negotiateODR_some P gyro (Or.inr hne)
  exact ⟨hden, hne, by rw [h]; rfl⟩

/-- C10 (amended), at `mpuDividerDrops = 254`. -/
theorem C10_denominator_nonzero_up_to_254_witness :
    gyroSyncDenominator (bringUpGyro 0 1 254 0) = 254 + 1 ∧
    gyroSyncDenominator (bringUpGyro 0 1 254 0) ≠ 0 ∧
    (negotiateODR (examplePlatform false) (bringUpGyro 0 1 254 0)).isSome = true :=
  C10_denominator_nonzero_up_to_254 (examplePlatform false) (bringUpGyro 0 1 254 0)
    (by decide)

end ICM42605

